import Mathlib

/-!
Shallow embedding of the balance-consistency ledger of the bitcoinbudget
repository: the transaction effects engine, the transfer engines, the
reconciliation engine and the unassigned-pool calculator implemented in
`BudgetStorageService` and `AccountStorage`.

Modelling conventions:
* All monetary amounts are `Int` (the source stores integer sats in JS
  numbers; no fractional values occur).
* The IndexedDB object stores are modelled as lists of records inside a
  single `State`; `get` is `List.find?` on the id, `put` is a map that
  replaces the record with the matching id, `add` appends, `delete`
  filters the id out.
* JS truthiness tests on ids (`if (transaction.categoryId)`) are modelled
  by `jsTruthy` / comparison with the empty string.
* Fields that no modelled operation reads (dates, colors, icons,
  description flags, sort order, account type) are omitted; the
  `getAccounts` sort by `sortOrder` is omitted because every modelled
  consumer is order-insensitive (sums and id lookups).
* `crypto.randomUUID()` results are passed in as explicit id arguments.
-/

/-- Budget category record (`BudgetCategory` in types/budget.ts), with the
fields the ledger reads: id, name, target and current amount. -/
structure Category where
  id : String
  name : String
  targetAmount : Int
  currentAmount : Int
deriving Repr, DecidableEq

/-- Account record (`Account` in types/account.ts) with the fields the
ledger reads: id, owning budget, name, balance, on-budget and closed flags. -/
structure Account where
  id : String
  budgetId : String
  name : String
  balance : Int
  isOnBudget : Bool
  isClosed : Bool
deriving Repr, DecidableEq

/-- Transaction record (`Transaction` in types/budget.ts). `accountId` is a
required string, `categoryId` is nullable (`none` models `null`), `tags` is
the free-form tag list (`none`/missing is modelled as `[]`, which behaves
identically under `includes`). -/
structure Transaction where
  id : String
  accountId : String
  categoryId : Option String
  amount : Int
  description : String
  tags : List String
deriving Repr, DecidableEq

/-- Category-level transfer record (`Transfer` in types/budget.ts);
`description` is optional in the source. -/
structure Transfer where
  id : String
  fromCategoryId : String
  toCategoryId : String
  amount : Int
  description : Option String
deriving Repr, DecidableEq

/-- The persistent stores the ledger touches: budgets (only their ids are
read by the modelled code), categories, accounts, transactions, transfers. -/
structure State where
  budgets : List String
  categories : List Category
  accounts : List Account
  transactions : List Transaction
  transfers : List Transfer
deriving Repr, DecidableEq

/-- The `UNASSIGNED_CATEGORY_ID` sentinel from budget-storage. -/
def UNASSIGNED_CATEGORY_ID : String := "unassigned"

/-- Model of `tags?.includes(tag)`. -/
def hasTag (tags : List String) (tag : String) : Bool :=
  tags.contains tag

/-- JS truthiness of a nullable string id: `null`/missing and the empty
string are falsy. -/
def jsTruthy : Option String → Bool
  | none => false
  | some s => s ≠ ""

/-- Model of the JS idiom `input.description || defaultValue` (both null
and the empty string fall back to the default). -/
def jsOrDefault : Option String → String → String
  | none, d => d
  | some s, d => if s = "" then d else s

/-- Store read `getCategory` on the category list. -/
def findCat (cs : List Category) (cid : String) : Option Category :=
  cs.find? (fun c => c.id = cid)

/-- Store read `getAccount` on the account list. -/
def findAcc (accs : List Account) (aid : String) : Option Account :=
  accs.find? (fun a => a.id = aid)

/-- Store write `updateCategory(id, \x7b currentAmount \x7d)`: the existing
record is re-read and merged, so only `currentAmount` changes. -/
def setCatAmt (cs : List Category) (cid : String) (amt : Int) : List Category :=
  cs.map (fun c => if c.id = cid then { c with currentAmount := amt } else c)

/-- Store write `updateAccountBalance(id, newBalance)` (a merge through
`updateAccount`, so only `balance` changes). -/
def setAccBalance (accs : List Account) (aid : String) (bal : Int) : List Account :=
  accs.map (fun a => if a.id = aid then { a with balance := bal } else a)

/-- Category balance effect of a transaction, shared by
`createTransaction` (`sign = 1`), the reversal and re-application inside
`updateTransaction` (`sign = -1` then `1`) and `deleteTransaction`
(`sign = -1`); all four sites in the source use the identical guard:
categoryId truthy, not UNASSIGNED, tags without "transfer". A missing
category is silently skipped (`if (category)` in the source). -/
def catApplyList (cs : List Category) (tx : Transaction) (sign : Int) : List Category :=
  match tx.categoryId with
  | some cid =>
    if cid ≠ "" ∧ cid ≠ UNASSIGNED_CATEGORY_ID ∧ ¬ hasTag tx.tags ("transfer") then
      match findCat cs cid with
      | some cat => setCatAmt cs cid (cat.currentAmount + sign * tx.amount)
      | none => cs
    else cs
  | none => cs

/-- Account balance effect of a transaction as used by `createTransaction`
and both halves of `updateTransaction`: guard is accountId truthy and tags
without "transfer" and without "account-transfer"; a missing account is
silently skipped (`if (account)`, and the surrounding try/catch only logs). -/
def accApplyList (accs : List Account) (tx : Transaction) (sign : Int) : List Account :=
  if tx.accountId ≠ "" ∧ ¬ hasTag tx.tags ("transfer") ∧ ¬ hasTag tx.tags ("account-transfer") then
    match findAcc accs tx.accountId with
    | some acc => setAccBalance accs tx.accountId (acc.balance + sign * tx.amount)
    | none => accs
  else accs

/-- Account balance reversal inside `deleteTransaction`: if the accountId
is truthy, an "account-transfer"-tagged transaction is reversed; otherwise
a transaction is reversed only when its tags do not include "transfer". -/
def accDeleteRevList (accs : List Account) (tx : Transaction) : List Account :=
  if tx.accountId ≠ "" then
    if hasTag tx.tags ("account-transfer") then
      match findAcc accs tx.accountId with
      | some acc => setAccBalance accs tx.accountId (acc.balance - tx.amount)
      | none => accs
    else if ¬ hasTag tx.tags ("transfer") then
      match findAcc accs tx.accountId with
      | some acc => setAccBalance accs tx.accountId (acc.balance - tx.amount)
      | none => accs
    else accs
  else accs

/-- Input of `createTransaction` (`CreateTransactionInput`). -/
structure CreateTransactionInput where
  amount : Int
  description : String
  categoryId : Option String
  accountId : String
  tags : List String
deriving Repr, DecidableEq

/-- The transaction record built at the top of `createTransaction` from
its input and the generated uuid. -/
def mkTransaction (input : CreateTransactionInput) (newId : String) : Transaction :=
  { id := newId
    accountId := input.accountId
    categoryId := input.categoryId
    amount := input.amount
    description := input.description
    tags := input.tags }

/-- `BudgetStorageService.createTransaction`: apply the category effect,
then the account effect, then append the transaction record. The
operation never throws (missing referenced entities are silently
skipped). -/
def createTransaction (s : State) (input : CreateTransactionInput) (newId : String) : State :=
  let tx := mkTransaction input newId
  let s1 := { s with categories := catApplyList s.categories tx 1 }
  let s2 := { s1 with accounts := accApplyList s1.accounts tx 1 }
  { s2 with transactions := s2.transactions ++ [tx] }

/-- Input of `updateTransaction` (`UpdateTransactionInput`, a Partial):
`some v` models a field present in the update object. -/
structure UpdateTransactionInput where
  accountId : Option String := none
  categoryId : Option (Option String) := none
  amount : Option Int := none
  description : Option String := none
  tags : Option (List String) := none
deriving Repr, DecidableEq

/-- The spread merge at the top of `updateTransaction`. -/
def applyUpdates (t : Transaction) (u : UpdateTransactionInput) : Transaction :=
  { t with
    accountId := u.accountId.getD t.accountId
    categoryId := u.categoryId.getD t.categoryId
    amount := u.amount.getD t.amount
    description := u.description.getD t.description
    tags := u.tags.getD t.tags }

/-- `BudgetStorageService.updateTransaction`: throws when the transaction
is absent; otherwise, when categoryId or amount changed, reverses the old
category effect and applies the new one; independently, when accountId or
amount changed, reverses the old account effect and applies the new one;
finally stores the merged record. -/
def updateTransaction (s : State) (id : String) (u : UpdateTransactionInput) :
    Except String Unit × State :=
  match s.transactions.find? (fun t => t.id = id) with
  | none => (Except.error ("Transaction not found"), s)
  | some existing =>
    let updated := applyUpdates existing u
    let s1 :=
      if existing.categoryId ≠ updated.categoryId ∨ existing.amount ≠ updated.amount then
        { s with categories := catApplyList (catApplyList s.categories existing (-1)) updated 1 }
      else s
    let s2 :=
      if existing.accountId ≠ updated.accountId ∨ existing.amount ≠ updated.amount then
        { s1 with accounts := accApplyList (accApplyList s1.accounts existing (-1)) updated 1 }
      else s1
    (Except.ok (),
      { s2 with transactions := s2.transactions.map (fun t => if t.id = id then updated else t) })

/-- `BudgetStorageService.deleteTransaction`: throws when the transaction
is absent; otherwise reverses the category effect, reverses the account
effect under the delete-specific guard, and removes the record. -/
def deleteTransaction (s : State) (id : String) : Except String Unit × State :=
  match s.transactions.find? (fun t => t.id = id) with
  | none => (Except.error ("Transaction not found"), s)
  | some tx =>
    let s1 := { s with categories := catApplyList s.categories tx (-1) }
    let s2 := { s1 with accounts := accDeleteRevList s1.accounts tx }
    (Except.ok (), { s2 with transactions := s2.transactions.filter (fun t => t.id ≠ id) })

/-- Input of `createTransfer` (`CreateTransferInput`). -/
structure CreateTransferInput where
  fromCategoryId : String
  toCategoryId : String
  amount : Int
  description : Option String
deriving Repr, DecidableEq

/-- `BudgetStorageService.createTransfer`. Three branches: from UNASSIGNED
(synthesize an expense leg tagged "transfer" on the unassigned side, then
credit the destination with the balance read taken before the synthesis),
to UNASSIGNED (mirror image, with a fresh re-read of the source before the
debit), and real-to-real (debit and credit with values precomputed from
the initial parallel reads). The transfer record is appended last. -/
def createTransfer (s : State) (input : CreateTransferInput) (newTxId transferId : String) :
    Except String Unit × State :=
  let transfer : Transfer :=
    { id := transferId
      fromCategoryId := input.fromCategoryId
      toCategoryId := input.toCategoryId
      amount := input.amount
      description := input.description }
  if input.fromCategoryId = UNASSIGNED_CATEGORY_ID then
    match findCat s.categories input.toCategoryId with
    | none => (Except.error ("Destination category not found"), s)
    | some toCategory =>
      let s1 := createTransaction s
        { amount := -input.amount
          description := jsOrDefault input.description ("Transfer")
          categoryId := some input.fromCategoryId
          accountId := "default-account-id"
          tags := ["transfer"] } newTxId
      let s2 := { s1 with categories := setCatAmt s1.categories input.toCategoryId (toCategory.currentAmount + input.amount) }
      (Except.ok (), { s2 with transfers := s2.transfers ++ [transfer] })
  else if input.toCategoryId = UNASSIGNED_CATEGORY_ID then
    match findCat s.categories input.fromCategoryId with
    | none => (Except.error ("Source category not found"), s)
    | some _ =>
      let s1 := createTransaction s
        { amount := input.amount
          description := jsOrDefault input.description ("Transfer")
          categoryId := some input.toCategoryId
          accountId := "default-account-id"
          tags := ["transfer"] } newTxId
      let s2 :=
        if input.fromCategoryId ≠ UNASSIGNED_CATEGORY_ID then
          match findCat s1.categories input.fromCategoryId with
          | some sourceCategory =>
            { s1 with categories := setCatAmt s1.categories input.fromCategoryId (sourceCategory.currentAmount - input.amount) }
          | none => s1
        else s1
      (Except.ok (), { s2 with transfers := s2.transfers ++ [transfer] })
  else
    match findCat s.categories input.fromCategoryId, findCat s.categories input.toCategoryId with
    | none, _ => (Except.error ("Source category not found"), s)
    | some _, none => (Except.error ("Destination category not found"), s)
    | some fromCategory, some toCategory =>
      let s1 := { s with categories := setCatAmt s.categories input.fromCategoryId (fromCategory.currentAmount - input.amount) }
      let s2 := { s1 with categories := setCatAmt s1.categories input.toCategoryId (toCategory.currentAmount + input.amount) }
      (Except.ok (), { s2 with transfers := s2.transfers ++ [transfer] })

/-- `BudgetStorageService.deleteTransfer`: looks the transfer up by id,
then mirrors whichever `createTransfer` branch applied. For the two
UNASSIGNED branches the synthesized leg is located by a content match on
amount, the description pattern built from the category name, and the
"transfer" tag; when found it is deleted through `deleteTransaction`,
otherwise the lookup is silently skipped. The direct category edit is then
reversed with the balance value read before the leg deletion, and the
transfer record is removed last. -/
def deleteTransfer (s : State) (id : String) : Except String Unit × State :=
  match s.transfers.find? (fun tr => tr.id = id) with
  | none => (Except.error ("Transfer not found"), s)
  | some transfer =>
    if transfer.fromCategoryId = UNASSIGNED_CATEGORY_ID then
      match findCat s.categories transfer.toCategoryId with
      | none => (Except.error ("Destination category not found"), s)
      | some toCategory =>
        let found := s.transactions.find? (fun t =>
          t.amount = -transfer.amount ∧
          t.description = "Transfer to " ++ toCategory.name ∧
          hasTag t.tags ("transfer"))
        let step := match found with
          | some tt => deleteTransaction s tt.id
          | none => (Except.ok (), s)
        match step with
        | (Except.error e, s1) => (Except.error e, s1)
        | (Except.ok _, s1) =>
          let s2 := { s1 with categories := setCatAmt s1.categories transfer.toCategoryId (toCategory.currentAmount - transfer.amount) }
          (Except.ok (), { s2 with transfers := s2.transfers.filter (fun tr => tr.id ≠ id) })
    else if transfer.toCategoryId = UNASSIGNED_CATEGORY_ID then
      match findCat s.categories transfer.fromCategoryId with
      | none => (Except.error ("Source category not found"), s)
      | some fromCategory =>
        let found := s.transactions.find? (fun t =>
          t.amount = transfer.amount ∧
          t.description = "Transfer from " ++ fromCategory.name ∧
          hasTag t.tags ("transfer"))
        let step := match found with
          | some tt => deleteTransaction s tt.id
          | none => (Except.ok (), s)
        match step with
        | (Except.error e, s1) => (Except.error e, s1)
        | (Except.ok _, s1) =>
          let s2 := { s1 with categories := setCatAmt s1.categories transfer.fromCategoryId (fromCategory.currentAmount + transfer.amount) }
          (Except.ok (), { s2 with transfers := s2.transfers.filter (fun tr => tr.id ≠ id) })
    else
      match findCat s.categories transfer.fromCategoryId, findCat s.categories transfer.toCategoryId with
      | none, _ => (Except.error ("Source category not found"), s)
      | some _, none => (Except.error ("Destination category not found"), s)
      | some fromCategory, some toCategory =>
        let s1 := { s with categories := setCatAmt s.categories transfer.fromCategoryId (fromCategory.currentAmount + transfer.amount) }
        let s2 := { s1 with categories := setCatAmt s1.categories transfer.toCategoryId (toCategory.currentAmount - transfer.amount) }
        (Except.ok (), { s2 with transfers := s2.transfers.filter (fun tr => tr.id ≠ id) })

/-- Integer sum of a transaction list (`reduce((sum, t) => sum + t.amount, 0)`). -/
def sumTxAmounts (ts : List Transaction) : Int :=
  ts.foldl (fun sum t => sum + t.amount) 0

/-- `BudgetStorageService.getUnassignedBalance`: on-budget non-closed
account balances of the first budget, plus transactions with a falsy
categoryId excluding transfer-related tags, minus the sum of all category
current amounts. -/
def getUnassignedBalance (s : State) : Int :=
  let transactionBalance := sumTxAmounts (s.transactions.filter (fun t =>
    ¬ jsTruthy t.categoryId ∧ ¬ hasTag t.tags ("transfer") ∧ ¬ hasTag t.tags ("account-transfer")))
  let accountBalance :=
    match s.budgets.head? with
    | none => 0
    | some b =>
      (s.accounts.filter (fun a => a.budgetId = b ∧ a.isOnBudget ∧ ¬ a.isClosed)).foldl
        (fun sum a => sum + a.balance) 0
  let totalAllocatedToCategories := s.categories.foldl (fun sum c => sum + c.currentAmount) 0
  accountBalance + transactionBalance - totalAllocatedToCategories

/-- The per-category balance recomputed inside
`recalculateCategoryBalances`: transfers in, minus transfers out, plus
non-transfer-tagged transactions of the category. -/
def categoryComputedBalance (transactions : List Transaction) (transfers : List Transfer)
    (cid : String) : Int :=
  let transfersTo := (transfers.filter (fun t => t.toCategoryId = cid)).foldl
    (fun sum t => sum + t.amount) 0
  let transfersFrom := (transfers.filter (fun t => t.fromCategoryId = cid)).foldl
    (fun sum t => sum + t.amount) 0
  let txs := sumTxAmounts (transactions.filter (fun t =>
    t.categoryId = some cid ∧ ¬ hasTag t.tags ("transfer") ∧ ¬ hasTag t.tags ("account-transfer")))
  transfersTo - transfersFrom + txs

/-- The `for (const category of categories)` loop body of
`recalculateCategoryBalances`, threading the store state and the list of
category ids whose stored balance was overwritten (an overwrite happens
only when the snapshot value differs from the recomputed one). -/
def recalcCatLoop : List Category → State → List String → State × List String
  | [], st, ws => (st, ws)
  | cat :: rest, st, ws =>
    let balance := categoryComputedBalance st.transactions st.transfers cat.id
    if cat.currentAmount ≠ balance then
      recalcCatLoop rest { st with categories := setCatAmt st.categories cat.id balance } (ws ++ [cat.id])
    else
      recalcCatLoop rest st ws

/-- `BudgetStorageService.recalculateCategoryBalances`, also returning the
ids of the categories whose stored balance was actually written. -/
def recalculateCategoryBalances (s : State) : State × List String :=
  recalcCatLoop s.categories s []

/-- The per-account balance recomputed inside
`recalculateAccountBalances`: all transactions of the account whose tags
do not include the exact tag "transfer" (so "account-transfer"-tagged
transactions are included). -/
def accountComputedBalance (transactions : List Transaction) (aid : String) : Int :=
  sumTxAmounts (transactions.filter (fun t => t.accountId = aid ∧ ¬ hasTag t.tags ("transfer")))

/-- The inner `for (const account of accounts)` loop of
`recalculateAccountBalances`; `txs` is the transaction snapshot read once
before both loops. -/
def recalcAccLoop (txs : List Transaction) :
    List Account → State → List String → State × List String
  | [], st, ws => (st, ws)
  | acc :: rest, st, ws =>
    let calculatedBalance := accountComputedBalance txs acc.id
    if acc.balance ≠ calculatedBalance then
      recalcAccLoop txs rest { st with accounts := setAccBalance st.accounts acc.id calculatedBalance } (ws ++ [acc.id])
    else
      recalcAccLoop txs rest st ws

/-- The outer `for (const budget of budgets)` loop of
`recalculateAccountBalances`: each budget re-reads its accounts from the
current store. -/
def recalcBudgetLoop (txs : List Transaction) :
    List String → State → List String → State × List String
  | [], st, ws => (st, ws)
  | b :: rest, st, ws =>
    let accounts := st.accounts.filter (fun a => a.budgetId = b)
    let r := recalcAccLoop txs accounts st ws
    recalcBudgetLoop txs rest r.1 r.2

/-- `BudgetStorageService.recalculateAccountBalances`, also returning the
ids of the accounts whose stored balance was actually written. -/
def recalculateAccountBalances (s : State) : State × List String :=
  recalcBudgetLoop s.transactions s.budgets s []

/-- Input of `AccountStorage.transferBetweenAccounts`. -/
structure AccountTransferInput where
  fromAccountId : String
  toAccountId : String
  amount : Int
  description : Option String
deriving Repr, DecidableEq

/-- `AccountStorage.transferBetweenAccounts`: looks both accounts up,
rejects a missing source, a missing destination, then insufficient funds
(`fromAccount.balance < amount`); on success debits and credits the
balances (values precomputed from the initial reads) and creates the two
linked legs tagged "account-transfer" through `createTransaction` (whose
account effect is skipped by the tag). The source wraps the leg creation
in a try/catch whose only failure source is the persistence layer; that
failure is injected here by the `txCreateFails` flag, in which case the
catch block restores both balances to the initially read values and
rethrows. -/
def transferBetweenAccounts (s : State) (d : AccountTransferInput)
    (transferId fromTxId toTxId : String) (txCreateFails : Bool) :
    Except String Unit × State :=
  match findAcc s.accounts d.fromAccountId with
  | none => (Except.error ("Source account not found"), s)
  | some fromAccount =>
    match findAcc s.accounts d.toAccountId with
    | none => (Except.error ("Destination account not found"), s)
    | some toAccount =>
      if fromAccount.balance < d.amount then
        (Except.error ("Insufficient funds in source account"), s)
      else
        let s1 := { s with accounts := setAccBalance s.accounts d.fromAccountId (fromAccount.balance - d.amount) }
        let s2 := { s1 with accounts := setAccBalance s1.accounts d.toAccountId (toAccount.balance + d.amount) }
        if txCreateFails then
          let r1 := { s2 with accounts := setAccBalance s2.accounts d.fromAccountId fromAccount.balance }
          let r2 := { r1 with accounts := setAccBalance r1.accounts d.toAccountId toAccount.balance }
          (Except.error ("Failed to create transfer transactions"), r2)
        else
          let descr := jsOrDefault d.description ("Transfer from " ++ fromAccount.name ++ " to " ++ toAccount.name)
          let s3 := createTransaction s2
            { amount := -d.amount
              description := descr ++ " (Outgoing)"
              categoryId := none
              accountId := d.fromAccountId
              tags := ["account-transfer", "transfer-" ++ transferId] } fromTxId
          let s4 := createTransaction s3
            { amount := d.amount
              description := descr ++ " (Incoming)"
              categoryId := none
              accountId := d.toAccountId
              tags := ["account-transfer", "transfer-" ++ transferId] } toTxId
          (Except.ok (), s4)

/-!
Helper lemmas about the keyed list stores.
-/

/-- A find over an append skips a first block with no match. -/
theorem find?_append_none {α : Type} (p : α → Bool) (l1 l2 : List α)
    (h : ∀ x ∈ l1, p x = false) :
    (l1 ++ l2).find? p = l2.find? p := by
  induction l1 with
  | nil => rfl
  | cons a rest ih =>
    have ha : p a = false := h a (List.mem_cons_self a rest)
    simp only [List.cons_append, List.find?, ha]
    exact ih (fun x hx => h x (List.mem_cons_of_mem a hx))

/-- A filter keeps a whole block whose elements all satisfy it. -/
theorem filter_eq_self_of_forall {α : Type} (p : α → Bool) (l : List α)
    (h : ∀ x ∈ l, p x = true) : l.filter p = l := by
  induction l with
  | nil => rfl
  | cons a rest ih =>
    have ha := h a (List.mem_cons_self a rest)
    simp only [List.filter, ha]
    exact congrArg (a :: ·) (ih (fun x hx => h x (List.mem_cons_of_mem a hx)))


/-- Looking up a changed category id sees the written amount. -/
theorem findCat_setCatAmt_self (cs : List Category) (cid : String) (v : Int) :
    findCat (setCatAmt cs cid v) cid
      = (findCat cs cid).map (fun c => { c with currentAmount := v }) := by
  induction cs with
  | nil => rfl
  | cons c rest ih =>
    simp only [setCatAmt, List.map_cons, findCat] at ih ⊢
    by_cases h : c.id = cid
    · rw [if_pos h, List.find?_cons_of_pos _ (by simp [h]), List.find?_cons_of_pos _ (by simp [h])]
      rfl
    · rw [if_neg h, List.find?_cons_of_neg _ (by simp [h]), List.find?_cons_of_neg _ (by simp [h])]
      exact ih

/-- Looking up any other id is unaffected by a category balance write. -/
theorem findCat_setCatAmt_ne (cs : List Category) (cid i : String) (v : Int)
    (h : i ≠ cid) :
    findCat (setCatAmt cs cid v) i = findCat cs i := by
  induction cs with
  | nil => rfl
  | cons c rest ih =>
    simp only [setCatAmt, List.map_cons, findCat] at ih ⊢
    by_cases hc : c.id = cid
    · have hne : ¬ c.id = i := fun hh => h (hh ▸ hc)
      rw [if_pos hc, List.find?_cons_of_neg _ (by simp [hne]),
        List.find?_cons_of_neg _ (by simp [hne])]
      exact ih
    · by_cases hi : c.id = i
      · rw [if_neg hc, List.find?_cons_of_pos _ (by simp [hi]),
          List.find?_cons_of_pos _ (by simp [hi])]
      · rw [if_neg hc, List.find?_cons_of_neg _ (by simp [hi]),
          List.find?_cons_of_neg _ (by simp [hi])]
        exact ih

/-- Two successive balance writes to the same category collapse to the second. -/
theorem setCatAmt_setCatAmt (cs : List Category) (cid : String) (v w : Int) :
    setCatAmt (setCatAmt cs cid v) cid w = setCatAmt cs cid w := by
  induction cs with
  | nil => rfl
  | cons c rest ih =>
    simp only [setCatAmt, List.map_cons] at ih ⊢
    by_cases h : c.id = cid
    · rw [if_pos h]
      have hv : ({ c with currentAmount := v } : Category).id = cid := h
      rw [if_pos hv, if_pos h]
      exact congrArg _ ih
    · rw [if_neg h, if_neg h]
      exact congrArg _ ih

/-- Writing back the found category's own current amount is a no-op, as
long as category ids are unique. -/
theorem setCatAmt_cancel (cs : List Category) (cid : String) (cat : Category)
    (hnd : (cs.map (fun c => c.id)).Nodup) (hf : findCat cs cid = some cat) :
    setCatAmt cs cid cat.currentAmount = cs := by
  induction cs with
  | nil => simp [findCat] at hf
  | cons c rest ih =>
    simp only [List.map_cons, List.nodup_cons] at hnd
    by_cases h : c.id = cid
    · have hc : cat = c := by
        rw [findCat, List.find?_cons_of_pos _ (by simp [h])] at hf
        exact (Option.some.inj hf).symm
      have htail : setCatAmt rest cid cat.currentAmount = rest := by
        have hall : ∀ x ∈ rest, (if x.id = cid then ({ x with currentAmount := cat.currentAmount } : Category) else x) = x := by
          intro x hx
          have hxne : ¬ x.id = cid := by
            intro hxx
            have hmem : x.id ∈ rest.map (fun y => y.id) := List.mem_map_of_mem (fun y => y.id) hx
            rw [hxx, ← h] at hmem
            exact hnd.1 hmem
          rw [if_neg hxne]
        calc setCatAmt rest cid cat.currentAmount
            = rest.map (fun x => x) := List.map_congr_left hall
          _ = rest := List.map_id' rest
      calc setCatAmt (c :: rest) cid cat.currentAmount
          = ({ c with currentAmount := cat.currentAmount } : Category) :: setCatAmt rest cid cat.currentAmount := by
            simp [setCatAmt, h]
        _ = c :: rest := by rw [htail, hc]
    · have hf' : findCat rest cid = some cat := by
        rw [findCat, List.find?_cons_of_neg _ (by simp [h])] at hf
        exact hf
      calc setCatAmt (c :: rest) cid cat.currentAmount
          = c :: setCatAmt rest cid cat.currentAmount := by simp [setCatAmt, h]
        _ = c :: rest := congrArg _ (ih hnd.2 hf')

/-- With unique ids, finding a member category by its own id returns it. -/
theorem findCat_self (cs : List Category) (c : Category)
    (hnd : (cs.map (fun x => x.id)).Nodup) (hc : c ∈ cs) :
    findCat cs c.id = some c := by
  induction cs with
  | nil => cases hc
  | cons x rest ih =>
    simp only [List.map_cons, List.nodup_cons] at hnd
    rcases List.mem_cons.mp hc with h | h
    · rw [h, findCat, List.find?_cons_of_pos _ (by simp)]
    · have hx : ¬ x.id = c.id := by
        intro hxx
        have hmem : c.id ∈ rest.map (fun y => y.id) := List.mem_map_of_mem (fun y => y.id) h
        rw [← hxx] at hmem
        exact hnd.1 hmem
      rw [findCat, List.find?_cons_of_neg _ (by simp [hx])]
      exact ih hnd.2 h

/-- A category balance write keeps the id list. -/
theorem setCatAmt_map_id (cs : List Category) (cid : String) (v : Int) :
    (setCatAmt cs cid v).map (fun c => c.id) = cs.map (fun c => c.id) := by
  induction cs with
  | nil => rfl
  | cons c rest ih =>
    simp only [setCatAmt, List.map_cons] at ih ⊢
    by_cases h : c.id = cid
    · rw [if_pos h]
      exact congrArg _ ih
    · rw [if_neg h]
      exact congrArg _ ih

/-- Looking up a changed account id sees the written balance. -/
theorem findAcc_setAccBalance_self (accs : List Account) (aid : String) (v : Int) :
    findAcc (setAccBalance accs aid v) aid
      = (findAcc accs aid).map (fun a => { a with balance := v }) := by
  induction accs with
  | nil => rfl
  | cons a rest ih =>
    simp only [setAccBalance, List.map_cons, findAcc] at ih ⊢
    by_cases h : a.id = aid
    · rw [if_pos h, List.find?_cons_of_pos _ (by simp [h]), List.find?_cons_of_pos _ (by simp [h])]
      rfl
    · rw [if_neg h, List.find?_cons_of_neg _ (by simp [h]), List.find?_cons_of_neg _ (by simp [h])]
      exact ih

/-- Looking up any other id is unaffected by an account balance write. -/
theorem findAcc_setAccBalance_ne (accs : List Account) (aid i : String) (v : Int)
    (h : i ≠ aid) :
    findAcc (setAccBalance accs aid v) i = findAcc accs i := by
  induction accs with
  | nil => rfl
  | cons a rest ih =>
    simp only [setAccBalance, List.map_cons, findAcc] at ih ⊢
    by_cases ha : a.id = aid
    · have hne : ¬ a.id = i := fun hh => h (hh ▸ ha)
      rw [if_pos ha, List.find?_cons_of_neg _ (by simp [hne]),
        List.find?_cons_of_neg _ (by simp [hne])]
      exact ih
    · by_cases hi : a.id = i
      · rw [if_neg ha, List.find?_cons_of_pos _ (by simp [hi]),
          List.find?_cons_of_pos _ (by simp [hi])]
      · rw [if_neg ha, List.find?_cons_of_neg _ (by simp [hi]),
          List.find?_cons_of_neg _ (by simp [hi])]
        exact ih

/-- Two successive balance writes to the same account collapse to the second. -/
theorem setAccBalance_setAccBalance (accs : List Account) (aid : String) (v w : Int) :
    setAccBalance (setAccBalance accs aid v) aid w = setAccBalance accs aid w := by
  induction accs with
  | nil => rfl
  | cons a rest ih =>
    simp only [setAccBalance, List.map_cons] at ih ⊢
    by_cases h : a.id = aid
    · rw [if_pos h]
      have hv : ({ a with balance := v } : Account).id = aid := h
      rw [if_pos hv, if_pos h]
      exact congrArg _ ih
    · rw [if_neg h, if_neg h]
      exact congrArg _ ih

/-- Balance writes to two distinct account ids commute. -/
theorem setAccBalance_comm (accs : List Account) (i j : String) (v w : Int)
    (h : i ≠ j) :
    setAccBalance (setAccBalance accs i v) j w
      = setAccBalance (setAccBalance accs j w) i v := by
  induction accs with
  | nil => rfl
  | cons a rest ih =>
    simp only [setAccBalance, List.map_cons] at ih ⊢
    by_cases hi : a.id = i
    · have hj : ¬ a.id = j := fun hh => h (hi.symm.trans hh)
      simp [hi, hj, h, ih]
    · by_cases hj : a.id = j
      · simp [hj, hi, Ne.symm h, ih]
      · simp [hi, hj, ih]

/-- Writing back the found account's own balance is a no-op, as long as
account ids are unique. -/
theorem setAccBalance_cancel (accs : List Account) (aid : String) (acc : Account)
    (hnd : (accs.map (fun a => a.id)).Nodup) (hf : findAcc accs aid = some acc) :
    setAccBalance accs aid acc.balance = accs := by
  induction accs with
  | nil => simp [findAcc] at hf
  | cons a rest ih =>
    simp only [List.map_cons, List.nodup_cons] at hnd
    by_cases h : a.id = aid
    · have hc : acc = a := by
        rw [findAcc, List.find?_cons_of_pos _ (by simp [h])] at hf
        exact (Option.some.inj hf).symm
      have htail : setAccBalance rest aid acc.balance = rest := by
        have hall : ∀ x ∈ rest, (if x.id = aid then ({ x with balance := acc.balance } : Account) else x) = x := by
          intro x hx
          have hxne : ¬ x.id = aid := by
            intro hxx
            have hmem : x.id ∈ rest.map (fun y => y.id) := List.mem_map_of_mem (fun y => y.id) hx
            rw [hxx, ← h] at hmem
            exact hnd.1 hmem
          rw [if_neg hxne]
        calc setAccBalance rest aid acc.balance
            = rest.map (fun x => x) := List.map_congr_left hall
          _ = rest := List.map_id' rest
      calc setAccBalance (a :: rest) aid acc.balance
          = ({ a with balance := acc.balance } : Account) :: setAccBalance rest aid acc.balance := by
            simp [setAccBalance, h]
        _ = a :: rest := by rw [htail, hc]
    · have hf' : findAcc rest aid = some acc := by
        rw [findAcc, List.find?_cons_of_neg _ (by simp [h])] at hf
        exact hf
      calc setAccBalance (a :: rest) aid acc.balance
          = a :: setAccBalance rest aid acc.balance := by simp [setAccBalance, h]
        _ = a :: rest := congrArg _ (ih hnd.2 hf')

/-- With unique ids, finding a member account by its own id returns it. -/
theorem findAcc_self (accs : List Account) (a : Account)
    (hnd : (accs.map (fun x => x.id)).Nodup) (ha : a ∈ accs) :
    findAcc accs a.id = some a := by
  induction accs with
  | nil => cases ha
  | cons x rest ih =>
    simp only [List.map_cons, List.nodup_cons] at hnd
    rcases List.mem_cons.mp ha with h | h
    · rw [h, findAcc, List.find?_cons_of_pos _ (by simp)]
    · have hx : ¬ x.id = a.id := by
        intro hxx
        have hmem : a.id ∈ rest.map (fun y => y.id) := List.mem_map_of_mem (fun y => y.id) h
        rw [← hxx] at hmem
        exact hnd.1 hmem
      rw [findAcc, List.find?_cons_of_neg _ (by simp [hx])]
      exact ih hnd.2 h

/-- An account balance write keeps the id list. -/
theorem setAccBalance_map_id (accs : List Account) (aid : String) (v : Int) :
    (setAccBalance accs aid v).map (fun a => a.id) = accs.map (fun a => a.id) := by
  induction accs with
  | nil => rfl
  | cons a rest ih =>
    simp only [setAccBalance, List.map_cons] at ih ⊢
    by_cases h : a.id = aid
    · rw [if_pos h]
      exact congrArg _ ih
    · rw [if_neg h]
      exact congrArg _ ih

/-- With unique ids, any member account sharing the found record's id is
that record. -/
theorem findAcc_unique (accs : List Account) (a x : Account)
    (hnd : (accs.map (fun y => y.id)).Nodup)
    (hf : findAcc accs a.id = some a) (hx : x ∈ accs) (hxi : x.id = a.id) :
    x = a := by
  have hself := findAcc_self accs x hnd hx
  rw [hxi, hf] at hself
  exact (Option.some.inj hself).symm

/-- Applying the category effect of a transaction and then its reversal
restores the category store (unique ids assumed, as the keyed store
guarantees). -/
theorem catApplyList_inverse (cs : List Category) (tx : Transaction)
    (hnd : (cs.map (fun c => c.id)).Nodup) :
    catApplyList (catApplyList cs tx 1) tx (-1) = cs := by
  cases htx : tx.categoryId with
  | none => simp [catApplyList, htx]
  | some cid =>
    by_cases hg : cid ≠ "" ∧ cid ≠ UNASSIGNED_CATEGORY_ID ∧ ¬ hasTag tx.tags ("transfer")
    · cases hf : findCat cs cid with
      | none => simp [catApplyList, htx, hg, hf]
      | some cat =>
        have key : findCat (setCatAmt cs cid (cat.currentAmount + 1 * tx.amount)) cid
            = some { cat with currentAmount := cat.currentAmount + 1 * tx.amount } := by
          rw [findCat_setCatAmt_self, hf]
          rfl
        have harith : cat.currentAmount + 1 * tx.amount + (-1) * tx.amount = cat.currentAmount := by
          ring
        simp only [catApplyList, htx, if_pos hg, hf, key, setCatAmt_setCatAmt]
        rw [harith]
        exact setCatAmt_cancel cs cid cat hnd hf
    · unfold catApplyList
      simp only [htx]
      rw [if_neg hg, if_neg hg]

/-- Applying the account effect of a transaction and then its reversal
restores the account store. -/
theorem accApplyList_inverse (accs : List Account) (tx : Transaction)
    (hnd : (accs.map (fun a => a.id)).Nodup) :
    accApplyList (accApplyList accs tx 1) tx (-1) = accs := by
  by_cases hg : tx.accountId ≠ "" ∧ ¬ hasTag tx.tags ("transfer") ∧ ¬ hasTag tx.tags ("account-transfer")
  · cases hf : findAcc accs tx.accountId with
    | none => simp [accApplyList, hg, hf]
    | some acc =>
      have key : findAcc (setAccBalance accs tx.accountId (acc.balance + 1 * tx.amount)) tx.accountId
          = some { acc with balance := acc.balance + 1 * tx.amount } := by
        rw [findAcc_setAccBalance_self, hf]
        rfl
      have harith : acc.balance + 1 * tx.amount + (-1) * tx.amount = acc.balance := by
        ring
      simp only [accApplyList, if_pos hg, hf, key, setAccBalance_setAccBalance]
      rw [harith]
      exact setAccBalance_cancel accs tx.accountId acc hnd hf
  · unfold accApplyList
    rw [if_neg hg, if_neg hg]

/-- For a transaction not tagged "account-transfer", the delete-time
account reversal coincides with reversing the create-time account effect. -/
theorem accDeleteRevList_eq_accApply (accs : List Account) (tx : Transaction)
    (hat : ¬ hasTag tx.tags ("account-transfer")) :
    accDeleteRevList accs tx = accApplyList accs tx (-1) := by
  unfold accDeleteRevList accApplyList
  by_cases ha : tx.accountId ≠ ""
  · by_cases ht : hasTag tx.tags ("transfer")
    · simp [ha, ht, hat]
    · have harith : ∀ b : Int, b - tx.amount = b + (-1) * tx.amount := by
        intro b
        ring
      cases hf : findAcc accs tx.accountId with
      | none => simp [ha, ht, hat, hf]
      | some acc =>
        simp only [if_pos ha, hat, if_false, ite_false, ht, not_false_eq_true, if_true, ite_true, hf]
        simp only [ha, ht, hat, not_false_eq_true, and_self, true_and, if_true, ite_true]
        rw [harith]
        simp [ha]
  · simp [ha]

/-- C2 (counterexample): the claim fails for a transaction tagged
"account-transfer" created through the generic `createTransaction` path.
On an account with balance 100, creating such a transaction of amount 5
applies no account effect (the tag is excluded on create), but deleting
it subtracts 5, leaving 95 instead of the pre-create 100. -/
theorem create_delete_accountTransfer_counterexample :
    ((findAcc (deleteTransaction (createTransaction
        { budgets := ["b"], categories := [],
          accounts := [{ id := "a", budgetId := "b", name := "Checking", balance := 100,
                         isOnBudget := true, isClosed := false }],
          transactions := [], transfers := [] }
        { amount := 5, description := "leg", categoryId := none,
          accountId := "a", tags := ["account-transfer"] } "t1") "t1").2.accounts ("a")).map
      (fun a => a.balance) = some 95)
    ∧ ((95 : Int) ≠ 100) := by
  decide

/-- C2 (amended): for any transaction whose tag list does not contain
"account-transfer" (with fresh id and unique category/account ids),
creating it via `createTransaction` and then deleting it via
`deleteTransaction` restores the entire state, in particular every touched
category currentAmount and account balance. -/
theorem create_delete_restores (s : State) (inp : CreateTransactionInput) (newId : String)
    (hfresh : ∀ t ∈ s.transactions, t.id ≠ newId)
    (hndc : (s.categories.map (fun c => c.id)).Nodup)
    (hnda : (s.accounts.map (fun a => a.id)).Nodup)
    (hnat : ¬ hasTag inp.tags ("account-transfer")) :
    deleteTransaction (createTransaction s inp newId) newId = (Except.ok (), s) := by
  have hfind : ((createTransaction s inp newId).transactions).find?
      (fun t => t.id = newId) = some (mkTransaction inp newId) := by
    show ((s.transactions ++ [mkTransaction inp newId]).find? fun t => t.id = newId) = _
    rw [find?_append_none _ _ _ (fun t ht => by simp [hfresh t ht])]
    rw [List.find?_cons_of_pos _ (by simp [mkTransaction])]
  have hcats : catApplyList (catApplyList s.categories (mkTransaction inp newId) 1)
      (mkTransaction inp newId) (-1) = s.categories :=
    catApplyList_inverse _ _ hndc
  have haccs : accDeleteRevList (accApplyList s.accounts (mkTransaction inp newId) 1)
      (mkTransaction inp newId) = s.accounts := by
    rw [accDeleteRevList_eq_accApply _ _ (by simpa [mkTransaction] using hnat)]
    exact accApplyList_inverse _ _ hnda
  have htxs : ((s.transactions ++ [mkTransaction inp newId]).filter fun t => t.id ≠ newId)
      = s.transactions := by
    rw [List.filter_append]
    have h1 : (s.transactions.filter fun t => t.id ≠ newId) = s.transactions :=
      filter_eq_self_of_forall _ _ (fun t ht => by simp [hfresh t ht])
    have h2 : (([mkTransaction inp newId] : List Transaction).filter fun t => t.id ≠ newId) = [] := by
      simp [mkTransaction]
    rw [h1, h2, List.append_nil]
  unfold deleteTransaction
  rw [hfind]
  refine congrArg (Prod.mk (Except.ok ())) ?_
  show State.mk s.budgets
      (catApplyList (catApplyList s.categories (mkTransaction inp newId) 1) (mkTransaction inp newId) (-1))
      (accDeleteRevList (accApplyList s.accounts (mkTransaction inp newId) 1) (mkTransaction inp newId))
      ((s.transactions ++ [mkTransaction inp newId]).filter fun t => t.id ≠ newId)
      s.transfers = s
  rw [hcats, haccs, htxs]

/-- C2 witness: the amended inverse law evaluated on a concrete state with
one category, one account and an untagged expense. -/
theorem create_delete_restores_witness :
    deleteTransaction (createTransaction
      { budgets := ["b"],
        categories := [{ id := "c", name := "Food", targetAmount := 0, currentAmount := 3 }],
        accounts := [{ id := "a", budgetId := "b", name := "Checking", balance := 10,
                       isOnBudget := true, isClosed := false }],
        transactions := [], transfers := [] }
      { amount := -4, description := "lunch", categoryId := some "c",
        accountId := "a", tags := [] } "t1") "t1"
    = (Except.ok (),
      { budgets := ["b"],
        categories := [{ id := "c", name := "Food", targetAmount := 0, currentAmount := 3 }],
        accounts := [{ id := "a", budgetId := "b", name := "Checking", balance := 10,
                       isOnBudget := true, isClosed := false }],
        transactions := [], transfers := [] }) :=
  create_delete_restores _ _ _ (by decide) (by decide) (by decide) (by decide)

/-- C7: the spec scenario. A category with currentAmount 0: creating an
untagged transaction of -25000 takes it to -25000, updating the amount to
-10000 takes it to -10000, deleting it takes it back to 0. -/
theorem scenario_create_update_delete :
    let s0 : State :=
      { budgets := ["b"],
        categories := [{ id := "c", name := "Groceries", targetAmount := 500000, currentAmount := 0 }],
        accounts := [{ id := "a", budgetId := "b", name := "Checking", balance := 0,
                       isOnBudget := true, isClosed := false }],
        transactions := [], transfers := [] }
    let s1 := createTransaction s0
      { amount := -25000, description := "shop", categoryId := some "c",
        accountId := "a", tags := [] } "t1"
    let s2 := (updateTransaction s1 "t1" { amount := some (-10000) }).2
    let s3 := (deleteTransaction s2 "t1").2
    ((findCat s1.categories ("c")).map (fun c => c.currentAmount) = some (-25000))
    ∧ ((findCat s2.categories ("c")).map (fun c => c.currentAmount) = some (-10000))
    ∧ ((findCat s3.categories ("c")).map (fun c => c.currentAmount) = some 0) := by
  decide

/-- C3: an account transfer whose amount exceeds the source balance is
rejected with the insufficient-funds error and leaves the whole state
(both balances and every transaction store) unchanged. -/
theorem transferBetweenAccounts_insufficientFunds (s : State) (d : AccountTransferInput)
    (transferId fromTxId toTxId : String) (txCreateFails : Bool) (fromAcc toAcc : Account)
    (hfrom : findAcc s.accounts d.fromAccountId = some fromAcc)
    (hto : findAcc s.accounts d.toAccountId = some toAcc)
    (hlt : fromAcc.balance < d.amount) :
    transferBetweenAccounts s d transferId fromTxId toTxId txCreateFails
      = (Except.error ("Insufficient funds in source account"), s) := by
  unfold transferBetweenAccounts
  simp only [hfrom, hto]
  rw [if_pos hlt]

/-- C3 witness: insufficient-funds rejection on two concrete accounts. -/
theorem transferBetweenAccounts_insufficientFunds_witness :
    transferBetweenAccounts
      { budgets := ["b"], categories := [],
        accounts := [{ id := "a1", budgetId := "b", name := "A", balance := 30,
                       isOnBudget := true, isClosed := false },
                     { id := "a2", budgetId := "b", name := "B", balance := 0,
                       isOnBudget := true, isClosed := false }],
        transactions := [], transfers := [] }
      { fromAccountId := "a1", toAccountId := "a2", amount := 31, description := none }
      "tr" "t1" "t2" false
    = (Except.error ("Insufficient funds in source account"),
      { budgets := ["b"], categories := [],
        accounts := [{ id := "a1", budgetId := "b", name := "A", balance := 30,
                       isOnBudget := true, isClosed := false },
                     { id := "a2", budgetId := "b", name := "B", balance := 0,
                       isOnBudget := true, isClosed := false }],
        transactions := [], transfers := [] }) :=
  transferBetweenAccounts_insufficientFunds _ _ _ _ _ _
    { id := "a1", budgetId := "b", name := "A", balance := 30, isOnBudget := true, isClosed := false }
    { id := "a2", budgetId := "b", name := "B", balance := 0, isOnBudget := true, isClosed := false }
    (by decide) (by decide) (by decide)

/-- C6: when creating the linked transaction pair fails after the two
balances were debited and credited, the catch block restores both balances
to the initially read values and surfaces the failure; with unique account
ids the resulting state equals the pre-transfer state exactly. -/
theorem transferBetweenAccounts_rollback (s : State) (d : AccountTransferInput)
    (transferId fromTxId toTxId : String) (fromAcc toAcc : Account)
    (hfrom : findAcc s.accounts d.fromAccountId = some fromAcc)
    (hto : findAcc s.accounts d.toAccountId = some toAcc)
    (hge : ¬ fromAcc.balance < d.amount)
    (hnd : (s.accounts.map (fun a => a.id)).Nodup) :
    transferBetweenAccounts s d transferId fromTxId toTxId true
      = (Except.error ("Failed to create transfer transactions"), s) := by
  have hlist : setAccBalance (setAccBalance (setAccBalance (setAccBalance s.accounts
        d.fromAccountId (fromAcc.balance - d.amount)) d.toAccountId (toAcc.balance + d.amount))
        d.fromAccountId fromAcc.balance) d.toAccountId toAcc.balance = s.accounts := by
    by_cases hij : d.fromAccountId = d.toAccountId
    · rw [← hij] at hto ⊢
      rw [setAccBalance_setAccBalance, setAccBalance_setAccBalance, setAccBalance_setAccBalance]
      exact setAccBalance_cancel _ _ toAcc hnd hto
    · rw [← setAccBalance_comm _ _ _ _ _ hij, setAccBalance_setAccBalance,
        setAccBalance_setAccBalance, setAccBalance_cancel _ _ fromAcc hnd hfrom,
        setAccBalance_cancel _ _ toAcc hnd hto]
  unfold transferBetweenAccounts
  simp only [hfrom, hto]
  rw [if_neg hge]
  refine congrArg (Prod.mk _) ?_
  show { s with accounts := setAccBalance (setAccBalance (setAccBalance (setAccBalance s.accounts
      d.fromAccountId (fromAcc.balance - d.amount)) d.toAccountId (toAcc.balance + d.amount))
      d.fromAccountId fromAcc.balance) d.toAccountId toAcc.balance } = s
  rw [hlist]

/-- C6 witness: the rollback evaluated on two concrete accounts. -/
theorem transferBetweenAccounts_rollback_witness :
    transferBetweenAccounts
      { budgets := ["b"], categories := [],
        accounts := [{ id := "a1", budgetId := "b", name := "A", balance := 50,
                       isOnBudget := true, isClosed := false },
                     { id := "a2", budgetId := "b", name := "B", balance := 7,
                       isOnBudget := true, isClosed := false }],
        transactions := [], transfers := [] }
      { fromAccountId := "a1", toAccountId := "a2", amount := 20, description := none }
      "tr" "t1" "t2" true
    = (Except.error ("Failed to create transfer transactions"),
      { budgets := ["b"], categories := [],
        accounts := [{ id := "a1", budgetId := "b", name := "A", balance := 50,
                       isOnBudget := true, isClosed := false },
                     { id := "a2", budgetId := "b", name := "B", balance := 7,
                       isOnBudget := true, isClosed := false }],
        transactions := [], transfers := [] }) :=
  transferBetweenAccounts_rollback _ _ _ _ _
    { id := "a1", budgetId := "b", name := "A", balance := 50, isOnBudget := true, isClosed := false }
    { id := "a2", budgetId := "b", name := "B", balance := 7, isOnBudget := true, isClosed := false }
    (by decide) (by decide) (by decide) (by decide)

/-- C4 (counterexample): a leg tagged "transfer" (without
"account-transfer") is NOT reversed on delete. Deleting a
"transfer"-tagged transaction of amount 5 on an account with balance 100
leaves the balance at 100, not the 95 the claim predicts. -/
theorem deleteTransaction_transferTag_counterexample :
    ((findAcc (deleteTransaction
        { budgets := ["b"], categories := [],
          accounts := [{ id := "a", budgetId := "b", name := "Checking", balance := 100,
                         isOnBudget := true, isClosed := false }],
          transactions := [{ id := "t1", accountId := "a", categoryId := none, amount := 5,
                             description := "leg", tags := ["transfer"] }],
          transfers := [] } "t1").2.accounts ("a")).map (fun a => a.balance) = some 100)
    ∧ ¬ ((findAcc (deleteTransaction
        { budgets := ["b"], categories := [],
          accounts := [{ id := "a", budgetId := "b", name := "Checking", balance := 100,
                         isOnBudget := true, isClosed := false }],
          transactions := [{ id := "t1", accountId := "a", categoryId := none, amount := 5,
                             description := "leg", tags := ["transfer"] }],
          transfers := [] } "t1").2.accounts ("a")).map (fun a => a.balance) = some 95) := by
  decide

/-- C4 (amended): for a stored transaction with a truthy accountId whose
account exists, `deleteTransaction` reverses the account balance effect
exactly when the transaction is tagged "account-transfer" or when its tags
do not contain "transfer"; a leg tagged "transfer" without
"account-transfer" is left unreversed. -/
theorem deleteTransaction_account_reversal (s : State) (tx : Transaction) (acc : Account)
    (hfind : s.transactions.find? (fun t => t.id = tx.id) = some tx)
    (haid : tx.accountId ≠ "")
    (hacc : findAcc s.accounts tx.accountId = some acc) :
    (findAcc (deleteTransaction s tx.id).2.accounts tx.accountId).map (fun a => a.balance)
      = some (if hasTag tx.tags ("account-transfer") ∨ ¬ hasTag tx.tags ("transfer")
              then acc.balance - tx.amount else acc.balance) := by
  unfold deleteTransaction
  rw [hfind]
  show (findAcc (accDeleteRevList s.accounts tx) tx.accountId).map (fun a => a.balance) = _
  unfold accDeleteRevList
  by_cases hat : hasTag tx.tags ("account-transfer") = true
  · simp only [if_pos haid, hat, if_true, ite_true, hacc]
    rw [findAcc_setAccBalance_self, hacc]
    simp [hat]
  · by_cases ht : hasTag tx.tags ("transfer") = true
    · simp only [if_pos haid, hat, ht, Bool.false_eq_true, if_false, ite_false,
        not_true_eq_false, if_true, ite_true]
      simp [hacc, hat, ht]
    · simp only [if_pos haid, hat, ht, Bool.false_eq_true, if_false, ite_false,
        not_false_eq_true, if_true, ite_true, hacc]
      rw [findAcc_setAccBalance_self, hacc]
      simp [hat, ht]

/-- C4 witness: the amended reversal rule evaluated on a concrete
"account-transfer"-tagged transaction. -/
theorem deleteTransaction_account_reversal_witness :
    (findAcc (deleteTransaction
        { budgets := ["b"], categories := [],
          accounts := [{ id := "a", budgetId := "b", name := "Checking", balance := 40,
                         isOnBudget := true, isClosed := false }],
          transactions := [{ id := "t9", accountId := "a", categoryId := none, amount := 15,
                             description := "in", tags := ["account-transfer", "transfer-x"] }],
          transfers := [] } "t9").2.accounts
      ({ id := "t9", accountId := "a", categoryId := none, amount := 15,
         description := "in", tags := ["account-transfer", "transfer-x"] } : Transaction).accountId).map
      (fun a => a.balance)
      = some (if hasTag ["account-transfer", "transfer-x"] ("account-transfer")
                ∨ ¬ hasTag ["account-transfer", "transfer-x"] ("transfer")
              then 40 - 15 else 40) :=
  deleteTransaction_account_reversal _
    { id := "t9", accountId := "a", categoryId := none, amount := 15,
      description := "in", tags := ["account-transfer", "transfer-x"] }
    { id := "a", budgetId := "b", name := "Checking", balance := 40,
      isOnBudget := true, isClosed := false }
    (by decide) (by decide) (by decide)

/-- C5 (counterexample): `createTransaction` with a non-null,
non-UNASSIGNED categoryId referencing no existing category does not fail
with a not-found error; it silently skips the category balance update and
still persists the transaction (a store write despite the dangling
reference). -/
theorem createTransaction_missingCategory_counterexample :
    ((createTransaction
        { budgets := [], categories := [], accounts := [], transactions := [], transfers := [] }
        { amount := -7, description := "x", categoryId := some "ghost",
          accountId := "", tags := [] } "t1").transactions
      = [{ id := "t1", accountId := "", categoryId := some "ghost", amount := -7,
           description := "x", tags := [] }])
    ∧ ((createTransaction
        { budgets := [], categories := [], accounts := [], transactions := [], transfers := [] }
        { amount := -7, description := "x", categoryId := some "ghost",
          accountId := "", tags := [] } "t1").categories = []) := by
  decide

/-- C5 (amended): `transferBetweenAccounts` checks its two account reads
before any write and fails not-found with the state unchanged, but
`createTransaction` with an absent referenced category does not fail: it
silently skips the category balance update and persists the transaction
anyway. -/
theorem notFound_precondition_behavior (s : State) (d : AccountTransferInput)
    (transferId fromTxId toTxId : String) (txCreateFails : Bool)
    (inp : CreateTransactionInput) (newId cid : String) :
    (findAcc s.accounts d.fromAccountId = none →
      transferBetweenAccounts s d transferId fromTxId toTxId txCreateFails
        = (Except.error ("Source account not found"), s))
    ∧ (∀ fromAcc, findAcc s.accounts d.fromAccountId = some fromAcc →
        findAcc s.accounts d.toAccountId = none →
        transferBetweenAccounts s d transferId fromTxId toTxId txCreateFails
          = (Except.error ("Destination account not found"), s))
    ∧ (inp.categoryId = some cid → findCat s.categories cid = none →
        (createTransaction s inp newId).categories = s.categories
        ∧ (createTransaction s inp newId).transactions
            = s.transactions ++ [mkTransaction inp newId]) := by
  refine ⟨?_, ?_, ?_⟩
  · intro h
    unfold transferBetweenAccounts
    rw [h]
  · intro fromAcc hf h
    unfold transferBetweenAccounts
    rw [hf, h]
  · intro hcid hnone
    constructor
    · show catApplyList s.categories (mkTransaction inp newId) 1 = s.categories
      unfold catApplyList
      simp only [mkTransaction, hcid]
      by_cases hg : cid ≠ "" ∧ cid ≠ UNASSIGNED_CATEGORY_ID ∧ ¬ hasTag inp.tags ("transfer")
      · rw [if_pos hg, hnone]
      · rw [if_neg hg]
    · rfl

/-- C5 witness: the not-found rejection and the silent-skip behavior
evaluated concretely (absent source account; absent category). -/
theorem notFound_precondition_behavior_witness :
    (transferBetweenAccounts
        { budgets := [], categories := [], accounts := [], transactions := [], transfers := [] }
        { fromAccountId := "nope", toAccountId := "nada", amount := 1, description := none }
        "tr" "t1" "t2" false
      = (Except.error ("Source account not found"),
        { budgets := [], categories := [], accounts := [], transactions := [], transfers := [] }))
    ∧ ((createTransaction
        { budgets := [], categories := [], accounts := [], transactions := [], transfers := [] }
        { amount := 3, description := "y", categoryId := some "ghost",
          accountId := "", tags := [] } "t2").categories = []) :=
  ⟨(notFound_precondition_behavior
      { budgets := [], categories := [], accounts := [], transactions := [], transfers := [] }
      { fromAccountId := "nope", toAccountId := "nada", amount := 1, description := none }
      "tr" "t1" "t2" false
      { amount := 3, description := "y", categoryId := some "ghost", accountId := "", tags := [] }
      "t2" "ghost").1 (by decide),
   ((notFound_precondition_behavior
      { budgets := [], categories := [], accounts := [], transactions := [], transfers := [] }
      { fromAccountId := "nope", toAccountId := "nada", amount := 1, description := none }
      "tr" "t1" "t2" false
      { amount := 3, description := "y", categoryId := some "ghost", accountId := "", tags := [] }
      "t2" "ghost").2.2 (by decide) (by decide)).1⟩

/-- The category reconciliation loop leaves the transaction and transfer
stores untouched. -/
theorem recalcCatLoop_frame (cats : List Category) :
    ∀ st ws, (recalcCatLoop cats st ws).1.transactions = st.transactions
      ∧ (recalcCatLoop cats st ws).1.transfers = st.transfers := by
  induction cats with
  | nil =>
    intro st ws
    exact ⟨rfl, rfl⟩
  | cons cat rest ih =>
    intro st ws
    simp only [recalcCatLoop]
    by_cases h : cat.currentAmount ≠ categoryComputedBalance st.transactions st.transfers cat.id
    · rw [if_pos h]
      exact ih _ _
    · rw [if_neg h]
      exact ih _ _

/-- A category id not processed by the loop keeps its stored record, and
its membership in the write log is unchanged. -/
theorem recalcCatLoop_untouched (cats : List Category) :
    ∀ st ws (i : String), i ∉ cats.map (fun c => c.id) →
      findCat (recalcCatLoop cats st ws).1.categories i = findCat st.categories i
      ∧ ((i ∈ (recalcCatLoop cats st ws).2) ↔ i ∈ ws) := by
  induction cats with
  | nil =>
    intro st ws i _
    exact ⟨rfl, Iff.rfl⟩
  | cons cat rest ih =>
    intro st ws i hi
    simp only [List.map_cons, List.mem_cons, not_or] at hi
    obtain ⟨hi1, hi2⟩ := hi
    simp only [recalcCatLoop]
    by_cases h : cat.currentAmount ≠ categoryComputedBalance st.transactions st.transfers cat.id
    · rw [if_pos h]
      refine ⟨?_, ?_⟩
      · rw [(ih _ (ws ++ [cat.id]) i hi2).1]
        exact findCat_setCatAmt_ne _ _ _ _ hi1
      · rw [(ih _ (ws ++ [cat.id]) i hi2).2]
        simp [hi1]
    · rw [if_neg h]
      exact ih st ws i hi2

/-- Main invariant of the category reconciliation loop: every processed
category ends at its recomputed balance, and is written exactly when the
snapshot value differed. -/
theorem recalcCatLoop_spec (txs : List Transaction) (trs : List Transfer) (cats : List Category) :
    ∀ st ws, st.transactions = txs → st.transfers = trs →
      ((cats.map (fun c => c.id)).Nodup) →
      (∀ x ∈ cats, findCat st.categories x.id = some x) →
      ∀ c ∈ cats,
        ((findCat (recalcCatLoop cats st ws).1.categories c.id).map (fun x => x.currentAmount)
          = some (categoryComputedBalance txs trs c.id))
        ∧ ((c.id ∈ (recalcCatLoop cats st ws).2)
            ↔ (c.id ∈ ws ∨ c.currentAmount ≠ categoryComputedBalance txs trs c.id)) := by
  induction cats with
  | nil =>
    intro st ws _ _ _ _ c hc
    cases hc
  | cons cat rest ih =>
    intro st ws htx htr hnd hin c hc
    simp only [List.map_cons, List.nodup_cons] at hnd
    obtain ⟨hnd1, hnd2⟩ := hnd
    have hbal : ∀ j : String,
        categoryComputedBalance st.transactions st.transfers j = categoryComputedBalance txs trs j := by
      intro j
      rw [htx, htr]
    simp only [recalcCatLoop]
    by_cases hwrite : cat.currentAmount ≠ categoryComputedBalance st.transactions st.transfers cat.id
    · rw [if_pos hwrite]
      rcases List.mem_cons.mp hc with hceq | hcrest
      · subst hceq
        refine ⟨?_, ?_⟩
        · rw [(recalcCatLoop_untouched rest _ (ws ++ [c.id]) c.id hnd1).1]
          show (findCat (setCatAmt st.categories c.id (categoryComputedBalance st.transactions st.transfers c.id)) c.id).map (fun x => x.currentAmount) = _
          rw [findCat_setCatAmt_self, hin c (List.mem_cons_self _ _)]
          simp [hbal]
        · rw [(recalcCatLoop_untouched rest _ (ws ++ [c.id]) c.id hnd1).2]
          have hw2 : c.currentAmount ≠ categoryComputedBalance txs trs c.id := by
            rw [← hbal c.id]
            exact hwrite
          simp [hw2]
      · have hin2 : ∀ x ∈ rest, findCat (setCatAmt st.categories cat.id (categoryComputedBalance st.transactions st.transfers cat.id)) x.id = some x := by
          intro x hx
          have hxmem : x.id ∈ rest.map (fun y => y.id) := List.mem_map_of_mem _ hx
          have hxne : x.id ≠ cat.id := fun hh => hnd1 (hh ▸ hxmem)
          rw [findCat_setCatAmt_ne _ _ _ _ hxne]
          exact hin x (List.mem_cons_of_mem _ hx)
        have hres := ih { st with categories := setCatAmt st.categories cat.id (categoryComputedBalance st.transactions st.transfers cat.id) } (ws ++ [cat.id]) htx htr hnd2 hin2 c hcrest
        have hcmem : c.id ∈ rest.map (fun y => y.id) := List.mem_map_of_mem _ hcrest
        have hcne : c.id ≠ cat.id := fun hh => hnd1 (hh ▸ hcmem)
        refine ⟨hres.1, ?_⟩
        rw [hres.2]
        simp [hcne]
    · rw [if_neg hwrite]
      rcases List.mem_cons.mp hc with hceq | hcrest
      · subst hceq
        rw [not_not] at hwrite
        have hw2 : c.currentAmount = categoryComputedBalance txs trs c.id := by
          rw [← hbal c.id]
          exact hwrite
        refine ⟨?_, ?_⟩
        · rw [(recalcCatLoop_untouched rest st ws c.id hnd1).1, hin c (List.mem_cons_self _ _)]
          simp [hw2]
        · rw [(recalcCatLoop_untouched rest st ws c.id hnd1).2]
          simp [hw2]
      · exact ih st ws htx htr hnd2 (fun x hx => hin x (List.mem_cons_of_mem _ hx)) c hcrest

/-- C1: for every category (unique ids assumed),
`recalculateCategoryBalances` ends with its stored currentAmount equal to
(transfers in) - (transfers out) + (non-transfer-tagged transactions of
the category), and the stored value is written exactly when the recomputed
value differs from the stored one. -/
theorem recalculateCategoryBalances_correct (s : State) (c : Category)
    (hc : c ∈ s.categories) (hnd : (s.categories.map (fun x => x.id)).Nodup) :
    ((findCat (recalculateCategoryBalances s).1.categories c.id).map (fun x => x.currentAmount)
       = some (categoryComputedBalance s.transactions s.transfers c.id))
    ∧ ((c.id ∈ (recalculateCategoryBalances s).2)
        ↔ c.currentAmount ≠ categoryComputedBalance s.transactions s.transfers c.id) := by
  have h := recalcCatLoop_spec s.transactions s.transfers s.categories s [] rfl rfl hnd
    (fun x hx => findCat_self s.categories x hnd hx) c hc
  unfold recalculateCategoryBalances
  refine ⟨h.1, ?_⟩
  rw [h.2]
  simp

/-- C1 witness: reconciliation on a concrete drifted state (stored 5,
recomputed 12 from one transfer in of 10, one transfer out of 3, and one
untagged transaction of 5). -/
theorem recalculateCategoryBalances_correct_witness :
    let sW : State :=
      { budgets := ["b"],
        categories := [{ id := "c", name := "Food", targetAmount := 0, currentAmount := 5 }],
        accounts := [],
        transactions := [{ id := "t1", accountId := "a", categoryId := some "c", amount := 5,
                           description := "x", tags := [] }],
        transfers := [{ id := "r1", fromCategoryId := "unassigned", toCategoryId := "c",
                        amount := 10, description := none },
                      { id := "r2", fromCategoryId := "c", toCategoryId := "unassigned",
                        amount := 3, description := none }] }
    let cW : Category := { id := "c", name := "Food", targetAmount := 0, currentAmount := 5 }
    ((findCat (recalculateCategoryBalances sW).1.categories cW.id).map (fun x => x.currentAmount)
       = some (categoryComputedBalance sW.transactions sW.transfers cW.id))
    ∧ ((cW.id ∈ (recalculateCategoryBalances sW).2)
        ↔ cW.currentAmount ≠ categoryComputedBalance sW.transactions sW.transfers cW.id) :=
  recalculateCategoryBalances_correct _ _ (by decide) (by decide)

/-- An account balance write keeps the budget-id list. -/
theorem setAccBalance_map_budgetId (accs : List Account) (aid : String) (v : Int) :
    (setAccBalance accs aid v).map (fun a => a.budgetId) = accs.map (fun a => a.budgetId) := by
  induction accs with
  | nil => rfl
  | cons a rest ih =>
    simp only [setAccBalance, List.map_cons] at ih ⊢
    by_cases h : a.id = aid
    · rw [if_pos h]
      exact congrArg _ ih
    · rw [if_neg h]
      exact congrArg _ ih

/-- The inner account reconciliation loop preserves account ids and
owning-budget ids. -/
theorem recalcAccLoop_frame (txs : List Transaction) (accs : List Account) :
    ∀ st ws, ((recalcAccLoop txs accs st ws).1.accounts.map (fun a => a.id)
        = st.accounts.map (fun a => a.id))
      ∧ ((recalcAccLoop txs accs st ws).1.accounts.map (fun a => a.budgetId)
        = st.accounts.map (fun a => a.budgetId)) := by
  induction accs with
  | nil =>
    intro st ws
    exact ⟨rfl, rfl⟩
  | cons acc rest ih =>
    intro st ws
    simp only [recalcAccLoop]
    by_cases h : acc.balance ≠ accountComputedBalance txs acc.id
    · rw [if_pos h]
      refine ⟨?_, ?_⟩
      · rw [(ih _ _).1]
        exact setAccBalance_map_id _ _ _
      · rw [(ih _ _).2]
        exact setAccBalance_map_budgetId _ _ _
    · rw [if_neg h]
      exact ih _ _

/-- An account id not processed by the inner loop keeps its record and its
write-log membership. -/
theorem recalcAccLoop_untouched (txs : List Transaction) (accs : List Account) :
    ∀ st ws (i : String), i ∉ accs.map (fun a => a.id) →
      findAcc (recalcAccLoop txs accs st ws).1.accounts i = findAcc st.accounts i
      ∧ ((i ∈ (recalcAccLoop txs accs st ws).2) ↔ i ∈ ws) := by
  induction accs with
  | nil =>
    intro st ws i _
    exact ⟨rfl, Iff.rfl⟩
  | cons acc rest ih =>
    intro st ws i hi
    simp only [List.map_cons, List.mem_cons, not_or] at hi
    obtain ⟨hi1, hi2⟩ := hi
    simp only [recalcAccLoop]
    by_cases h : acc.balance ≠ accountComputedBalance txs acc.id
    · rw [if_pos h]
      refine ⟨?_, ?_⟩
      · rw [(ih _ (ws ++ [acc.id]) i hi2).1]
        exact findAcc_setAccBalance_ne _ _ _ _ hi1
      · rw [(ih _ (ws ++ [acc.id]) i hi2).2]
        simp [hi1]
    · rw [if_neg h]
      exact ih st ws i hi2

/-- Main invariant of the inner account reconciliation loop: every
processed account ends at its recomputed balance (its other fields
unchanged), and is written exactly when the snapshot balance differed. -/
theorem recalcAccLoop_spec (txs : List Transaction) (accs : List Account) :
    ∀ st ws,
      ((accs.map (fun a => a.id)).Nodup) →
      (∀ x ∈ accs, findAcc st.accounts x.id = some x) →
      ∀ a ∈ accs,
        (findAcc (recalcAccLoop txs accs st ws).1.accounts a.id
          = some { a with balance := accountComputedBalance txs a.id })
        ∧ ((a.id ∈ (recalcAccLoop txs accs st ws).2)
            ↔ (a.id ∈ ws ∨ a.balance ≠ accountComputedBalance txs a.id)) := by
  induction accs with
  | nil =>
    intro st ws _ _ a ha
    cases ha
  | cons acc rest ih =>
    intro st ws hnd hin a ha
    simp only [List.map_cons, List.nodup_cons] at hnd
    obtain ⟨hnd1, hnd2⟩ := hnd
    simp only [recalcAccLoop]
    by_cases hwrite : acc.balance ≠ accountComputedBalance txs acc.id
    · rw [if_pos hwrite]
      rcases List.mem_cons.mp ha with haeq | harest
      · subst haeq
        refine ⟨?_, ?_⟩
        · rw [(recalcAccLoop_untouched txs rest _ (ws ++ [a.id]) a.id hnd1).1]
          show findAcc (setAccBalance st.accounts a.id (accountComputedBalance txs a.id)) a.id = _
          rw [findAcc_setAccBalance_self, hin a (List.mem_cons_self _ _)]
          rfl
        · rw [(recalcAccLoop_untouched txs rest _ (ws ++ [a.id]) a.id hnd1).2]
          simp [hwrite]
      · have hin2 : ∀ x ∈ rest, findAcc (setAccBalance st.accounts acc.id (accountComputedBalance txs acc.id)) x.id = some x := by
          intro x hx
          have hxmem : x.id ∈ rest.map (fun y => y.id) := List.mem_map_of_mem _ hx
          have hxne : x.id ≠ acc.id := fun hh => hnd1 (hh ▸ hxmem)
          rw [findAcc_setAccBalance_ne _ _ _ _ hxne]
          exact hin x (List.mem_cons_of_mem _ hx)
        have hres := ih { st with accounts := setAccBalance st.accounts acc.id (accountComputedBalance txs acc.id) } (ws ++ [acc.id]) hnd2 hin2 a harest
        have hamem : a.id ∈ rest.map (fun y => y.id) := List.mem_map_of_mem _ harest
        have hane : a.id ≠ acc.id := fun hh => hnd1 (hh ▸ hamem)
        refine ⟨hres.1, ?_⟩
        rw [hres.2]
        simp [hane]
    · rw [if_neg hwrite]
      rcases List.mem_cons.mp ha with haeq | harest
      · subst haeq
        rw [not_not] at hwrite
        refine ⟨?_, ?_⟩
        · rw [(recalcAccLoop_untouched txs rest st ws a.id hnd1).1, hin a (List.mem_cons_self _ _)]
          rw [← hwrite]
        · rw [(recalcAccLoop_untouched txs rest st ws a.id hnd1).2]
          simp [hwrite]
      · exact ih st ws hnd2 (fun x hx => hin x (List.mem_cons_of_mem _ hx)) a harest

/-- An account whose record is the unique one for its id and whose budget
is not `b` never appears in the batch read for budget `b`. -/
theorem not_mem_filter_ids (accs : List Account) (a : Account) (b : String)
    (hnd : (accs.map (fun y => y.id)).Nodup)
    (hfa : findAcc accs a.id = some a)
    (hb : a.budgetId ≠ b) :
    a.id ∉ (accs.filter (fun x => x.budgetId = b)).map (fun y => y.id) := by
  intro hmem
  rcases List.mem_map.mp hmem with ⟨x, hxmem, hxid⟩
  have hx2 : x ∈ accs := List.mem_of_mem_filter hxmem
  have hxa : x = a := findAcc_unique accs a x hnd hfa hx2 hxid
  have hxb : x.budgetId = b := by
    have hp := List.of_mem_filter hxmem
    simpa using hp
  rw [hxa] at hxb
  exact hb hxb

/-- An account owned by none of the remaining budgets is untouched by the
outer reconciliation loop. -/
theorem recalcBudgetLoop_untouched (txs : List Transaction) (bs : List String) :
    ∀ st ws (a : Account),
      ((st.accounts.map (fun y => y.id)).Nodup) →
      findAcc st.accounts a.id = some a →
      a.budgetId ∉ bs →
      findAcc (recalcBudgetLoop txs bs st ws).1.accounts a.id = some a
      ∧ ((a.id ∈ (recalcBudgetLoop txs bs st ws).2) ↔ a.id ∈ ws) := by
  induction bs with
  | nil =>
    intro st ws a _ hfa _
    exact ⟨hfa, Iff.rfl⟩
  | cons b rest ih =>
    intro st ws a hnd hfa hb
    simp only [List.mem_cons, not_or] at hb
    obtain ⟨hb1, hb2⟩ := hb
    simp only [recalcBudgetLoop]
    have hnotin := not_mem_filter_ids st.accounts a b hnd hfa hb1
    have hstep := recalcAccLoop_untouched txs (st.accounts.filter (fun x => x.budgetId = b)) st ws a.id hnotin
    have hnd1 : (((recalcAccLoop txs (st.accounts.filter (fun x => x.budgetId = b)) st ws).1.accounts).map (fun y => y.id)).Nodup := by
      rw [(recalcAccLoop_frame txs _ st ws).1]
      exact hnd
    have hfa1 : findAcc (recalcAccLoop txs (st.accounts.filter (fun x => x.budgetId = b)) st ws).1.accounts a.id = some a := by
      rw [hstep.1]
      exact hfa
    have hres := ih (recalcAccLoop txs (st.accounts.filter (fun x => x.budgetId = b)) st ws).1 (recalcAccLoop txs (st.accounts.filter (fun x => x.budgetId = b)) st ws).2 a hnd1 hfa1 hb2
    refine ⟨hres.1, ?_⟩
    rw [hres.2, hstep.2]

/-- Main invariant of the outer reconciliation loop: every account owned
by one of the (distinct) budgets ends at its recomputed balance and is
written exactly when the snapshot balance differed. -/
theorem recalcBudgetLoop_spec (txs : List Transaction) (bs : List String) :
    ∀ st ws (a : Account),
      bs.Nodup →
      ((st.accounts.map (fun y => y.id)).Nodup) →
      findAcc st.accounts a.id = some a →
      a.budgetId ∈ bs →
      ((findAcc (recalcBudgetLoop txs bs st ws).1.accounts a.id).map (fun x => x.balance)
        = some (accountComputedBalance txs a.id))
      ∧ ((a.id ∈ (recalcBudgetLoop txs bs st ws).2)
          ↔ (a.id ∈ ws ∨ a.balance ≠ accountComputedBalance txs a.id)) := by
  induction bs with
  | nil =>
    intro st ws a _ _ _ hmem
    cases hmem
  | cons b rest ih =>
    intro st ws a hndb hnd hfa hmem
    simp only [List.nodup_cons] at hndb
    obtain ⟨hndb1, hndb2⟩ := hndb
    simp only [recalcBudgetLoop]
    by_cases hb : a.budgetId = b
    · have hane : a ∈ st.accounts := List.mem_of_find?_eq_some hfa
      have hafilter : a ∈ st.accounts.filter (fun x => x.budgetId = b) :=
        List.mem_filter.mpr ⟨hane, by simp [hb]⟩
      have hndf : ((st.accounts.filter (fun x => x.budgetId = b)).map (fun y => y.id)).Nodup := by
        have hsub : ((st.accounts.filter (fun x => x.budgetId = b)).map (fun y => y.id)).Sublist (st.accounts.map (fun y => y.id)) :=
          (List.filter_sublist _).map _
        exact hsub.nodup hnd
      have hinf : ∀ x ∈ st.accounts.filter (fun y => y.budgetId = b), findAcc st.accounts x.id = some x :=
        fun x hx => findAcc_self st.accounts x hnd (List.mem_of_mem_filter hx)
      have hstep := recalcAccLoop_spec txs (st.accounts.filter (fun x => x.budgetId = b)) st ws hndf hinf a hafilter
      have hnd1 : (((recalcAccLoop txs (st.accounts.filter (fun x => x.budgetId = b)) st ws).1.accounts).map (fun y => y.id)).Nodup := by
        rw [(recalcAccLoop_frame txs _ st ws).1]
        exact hnd
      have hfa1 : findAcc (recalcAccLoop txs (st.accounts.filter (fun x => x.budgetId = b)) st ws).1.accounts a.id = some ({ a with balance := accountComputedBalance txs a.id } : Account) := hstep.1
      have hbnotin : ({ a with balance := accountComputedBalance txs a.id } : Account).budgetId ∉ rest := by
        show a.budgetId ∉ rest
        rw [hb]
        exact hndb1
      have hres := recalcBudgetLoop_untouched txs rest (recalcAccLoop txs (st.accounts.filter (fun x => x.budgetId = b)) st ws).1 (recalcAccLoop txs (st.accounts.filter (fun x => x.budgetId = b)) st ws).2 ({ a with balance := accountComputedBalance txs a.id } : Account) hnd1 hfa1 hbnotin
      have hres1 : findAcc (recalcBudgetLoop txs rest (recalcAccLoop txs (st.accounts.filter (fun x => x.budgetId = b)) st ws).1 (recalcAccLoop txs (st.accounts.filter (fun x => x.budgetId = b)) st ws).2).1.accounts a.id = some ({ a with balance := accountComputedBalance txs a.id } : Account) := hres.1
      have hres2 : ((a.id ∈ (recalcBudgetLoop txs rest (recalcAccLoop txs (st.accounts.filter (fun x => x.budgetId = b)) st ws).1 (recalcAccLoop txs (st.accounts.filter (fun x => x.budgetId = b)) st ws).2).2) ↔ a.id ∈ (recalcAccLoop txs (st.accounts.filter (fun x => x.budgetId = b)) st ws).2) := hres.2
      refine ⟨?_, ?_⟩
      · rw [hres1]
        rfl
      · rw [hres2, hstep.2]
    · have hnotin := not_mem_filter_ids st.accounts a b hnd hfa hb
      have hstep := recalcAccLoop_untouched txs (st.accounts.filter (fun x => x.budgetId = b)) st ws a.id hnotin
      have hnd1 : (((recalcAccLoop txs (st.accounts.filter (fun x => x.budgetId = b)) st ws).1.accounts).map (fun y => y.id)).Nodup := by
        rw [(recalcAccLoop_frame txs _ st ws).1]
        exact hnd
      have hfa1 : findAcc (recalcAccLoop txs (st.accounts.filter (fun x => x.budgetId = b)) st ws).1.accounts a.id = some a := by
        rw [hstep.1]
        exact hfa
      have hmem2 : a.budgetId ∈ rest := by
        rcases List.mem_cons.mp hmem with h | h
        · exact absurd h hb
        · exact h
      have hres := ih (recalcAccLoop txs (st.accounts.filter (fun x => x.budgetId = b)) st ws).1 (recalcAccLoop txs (st.accounts.filter (fun x => x.budgetId = b)) st ws).2 a hndb2 hnd1 hfa1 hmem2
      refine ⟨hres.1, ?_⟩
      rw [hres.2, hstep.2]

/-- C8: for every account owned by a stored budget (unique account ids and
distinct budgets assumed), `recalculateAccountBalances` ends with its
stored balance equal to the sum of amounts of the account's transactions
whose tags do not contain the exact tag "transfer" — in particular
"account-transfer"-tagged transactions are included — and the stored value
is written exactly when the recomputed value differs. -/
theorem recalculateAccountBalances_correct (s : State) (a : Account)
    (ha : a ∈ s.accounts)
    (hb : a.budgetId ∈ s.budgets)
    (hnd : (s.accounts.map (fun x => x.id)).Nodup)
    (hndb : s.budgets.Nodup) :
    ((findAcc (recalculateAccountBalances s).1.accounts a.id).map (fun x => x.balance)
       = some (accountComputedBalance s.transactions a.id))
    ∧ ((a.id ∈ (recalculateAccountBalances s).2)
        ↔ a.balance ≠ accountComputedBalance s.transactions a.id) := by
  have h := recalcBudgetLoop_spec s.transactions s.budgets s [] a hndb hnd
    (findAcc_self s.accounts a hnd ha) hb
  unfold recalculateAccountBalances
  refine ⟨h.1, ?_⟩
  rw [h.2]
  simp

/-- C8 witness: account reconciliation on a concrete drifted state (stored
3, recomputed 25 from an untagged deposit of 10 and an incoming
account-transfer leg of 15; a "transfer"-tagged synthetic leg of 99 is
excluded). -/
theorem recalculateAccountBalances_correct_witness :
    let sW : State :=
      { budgets := ["b"],
        categories := [],
        accounts := [{ id := "a", budgetId := "b", name := "Checking", balance := 3,
                       isOnBudget := true, isClosed := false }],
        transactions := [{ id := "t1", accountId := "a", categoryId := none, amount := 10,
                           description := "dep", tags := [] },
                         { id := "t2", accountId := "a", categoryId := none, amount := 15,
                           description := "in", tags := ["account-transfer", "transfer-x"] },
                         { id := "t3", accountId := "a", categoryId := some "unassigned", amount := 99,
                           description := "syn", tags := ["transfer"] }],
        transfers := [] }
    let aW : Account := { id := "a", budgetId := "b", name := "Checking", balance := 3,
                          isOnBudget := true, isClosed := false }
    ((findAcc (recalculateAccountBalances sW).1.accounts aW.id).map (fun x => x.balance)
       = some (accountComputedBalance sW.transactions aW.id))
    ∧ ((aW.id ∈ (recalculateAccountBalances sW).2)
        ↔ aW.balance ≠ accountComputedBalance sW.transactions aW.id) :=
  recalculateAccountBalances_correct _ _ (by decide) (by decide) (by decide) (by decide)

/-- Evaluation of `createTransfer` on the from-UNASSIGNED branch: the
synthesized expense leg (tagged "transfer", categoryId UNASSIGNED,
default account) touches no balances; the destination is credited with
the stale pre-read; the transfer record is appended. -/
theorem createTransfer_fromUnassigned (s : State) (c : Category) (a : Int)
    (d : Option String) (txId trId : String)
    (hc : findCat s.categories c.id = some c) :
    createTransfer s { fromCategoryId := UNASSIGNED_CATEGORY_ID, toCategoryId := c.id, amount := a, description := d } txId trId
      = (Except.ok (), { s with
          categories := setCatAmt s.categories c.id (c.currentAmount + a),
          transactions := s.transactions ++ [mkTransaction { amount := -a, description := jsOrDefault d ("Transfer"), categoryId := some UNASSIGNED_CATEGORY_ID, accountId := "default-account-id", tags := ["transfer"] } txId],
          transfers := s.transfers ++ [{ id := trId, fromCategoryId := UNASSIGNED_CATEGORY_ID, toCategoryId := c.id, amount := a, description := d }] }) := by
  have hcat1 : catApplyList s.categories (mkTransaction { amount := -a, description := jsOrDefault d ("Transfer"), categoryId := some UNASSIGNED_CATEGORY_ID, accountId := "default-account-id", tags := ["transfer"] } txId) 1 = s.categories := by
    unfold catApplyList mkTransaction
    dsimp only
    rw [if_neg (by decide)]
  have hacc1 : accApplyList s.accounts (mkTransaction { amount := -a, description := jsOrDefault d ("Transfer"), categoryId := some UNASSIGNED_CATEGORY_ID, accountId := "default-account-id", tags := ["transfer"] } txId) 1 = s.accounts := by
    unfold accApplyList mkTransaction
    dsimp only
    rw [if_neg (by decide)]
  unfold createTransfer createTransaction
  dsimp only
  rw [if_pos rfl, hc]
  dsimp only
  rw [hcat1, hacc1]

/-- Evaluation of `createTransfer` on the to-UNASSIGNED branch: the
synthesized income leg (tagged "transfer", categoryId UNASSIGNED, default
account) touches no balances; the source is debited after a fresh
re-read; the transfer record is appended. -/
theorem createTransfer_toUnassigned (s : State) (cid : String) (c : Category) (a : Int)
    (d : Option String) (txId trId : String)
    (hfc : findCat s.categories cid = some c)
    (hcid : cid ≠ UNASSIGNED_CATEGORY_ID) :
    createTransfer s { fromCategoryId := cid, toCategoryId := UNASSIGNED_CATEGORY_ID, amount := a, description := d } txId trId
      = (Except.ok (), { s with
          categories := setCatAmt s.categories cid (c.currentAmount - a),
          transactions := s.transactions ++ [mkTransaction { amount := a, description := jsOrDefault d ("Transfer"), categoryId := some UNASSIGNED_CATEGORY_ID, accountId := "default-account-id", tags := ["transfer"] } txId],
          transfers := s.transfers ++ [{ id := trId, fromCategoryId := cid, toCategoryId := UNASSIGNED_CATEGORY_ID, amount := a, description := d }] }) := by
  have hcat1 : catApplyList s.categories (mkTransaction { amount := a, description := jsOrDefault d ("Transfer"), categoryId := some UNASSIGNED_CATEGORY_ID, accountId := "default-account-id", tags := ["transfer"] } txId) 1 = s.categories := by
    unfold catApplyList mkTransaction
    dsimp only
    rw [if_neg (by decide)]
  have hacc1 : accApplyList s.accounts (mkTransaction { amount := a, description := jsOrDefault d ("Transfer"), categoryId := some UNASSIGNED_CATEGORY_ID, accountId := "default-account-id", tags := ["transfer"] } txId) 1 = s.accounts := by
    unfold accApplyList mkTransaction
    dsimp only
    rw [if_neg (by decide)]
  unfold createTransfer createTransaction
  dsimp only
  rw [if_neg hcid, if_pos rfl, hfc]
  dsimp only
  rw [hcat1, hacc1, if_pos hcid, hfc]

/-- The unassigned-pool read depends only on the budget list, the account
list, the category list, and the unassigned-eligible transactions. -/
theorem getUnassignedBalance_congr (s1 s2 : State)
    (hb : s1.budgets = s2.budgets) (hacc : s1.accounts = s2.accounts)
    (hcat : s1.categories = s2.categories)
    (htx : s1.transactions.filter (fun t => ¬ jsTruthy t.categoryId ∧ ¬ hasTag t.tags ("transfer") ∧ ¬ hasTag t.tags ("account-transfer"))
      = s2.transactions.filter (fun t => ¬ jsTruthy t.categoryId ∧ ¬ hasTag t.tags ("transfer") ∧ ¬ hasTag t.tags ("account-transfer"))) :
    getUnassignedBalance s1 = getUnassignedBalance s2 := by
  unfold getUnassignedBalance
  rw [hb, hacc, hcat, htx]

/-- C9: transferring an amount from UNASSIGNED to an existing category and
then the same amount back leaves both the unassigned balance and the
category's currentAmount at their initial values (unique category ids
assumed). -/
theorem unassigned_transfer_roundtrip (s : State) (c : Category) (a : Int)
    (d1 d2 : Option String) (txId1 txId2 trId1 trId2 : String)
    (hc : findCat s.categories c.id = some c)
    (hcid : c.id ≠ UNASSIGNED_CATEGORY_ID)
    (hnd : (s.categories.map (fun x => x.id)).Nodup) :
    ((createTransfer s { fromCategoryId := UNASSIGNED_CATEGORY_ID, toCategoryId := c.id, amount := a, description := d1 } txId1 trId1).1 = Except.ok ())
    ∧ ((createTransfer (createTransfer s { fromCategoryId := UNASSIGNED_CATEGORY_ID, toCategoryId := c.id, amount := a, description := d1 } txId1 trId1).2 { fromCategoryId := c.id, toCategoryId := UNASSIGNED_CATEGORY_ID, amount := a, description := d2 } txId2 trId2).1 = Except.ok ())
    ∧ (getUnassignedBalance (createTransfer (createTransfer s { fromCategoryId := UNASSIGNED_CATEGORY_ID, toCategoryId := c.id, amount := a, description := d1 } txId1 trId1).2 { fromCategoryId := c.id, toCategoryId := UNASSIGNED_CATEGORY_ID, amount := a, description := d2 } txId2 trId2).2 = getUnassignedBalance s)
    ∧ ((findCat (createTransfer (createTransfer s { fromCategoryId := UNASSIGNED_CATEGORY_ID, toCategoryId := c.id, amount := a, description := d1 } txId1 trId1).2 { fromCategoryId := c.id, toCategoryId := UNASSIGNED_CATEGORY_ID, amount := a, description := d2 } txId2 trId2).2.categories c.id).map (fun x => x.currentAmount) = some c.currentAmount) := by
  have h1 := createTransfer_fromUnassigned s c a d1 txId1 trId1 hc
  have hfc1 : findCat (setCatAmt s.categories c.id (c.currentAmount + a)) c.id = some ({ c with currentAmount := c.currentAmount + a } : Category) := by
    rw [findCat_setCatAmt_self, hc]
    rfl
  have h2 := createTransfer_toUnassigned ({ s with categories := setCatAmt s.categories c.id (c.currentAmount + a), transactions := s.transactions ++ [mkTransaction { amount := -a, description := jsOrDefault d1 ("Transfer"), categoryId := some UNASSIGNED_CATEGORY_ID, accountId := "default-account-id", tags := ["transfer"] } txId1], transfers := s.transfers ++ [{ id := trId1, fromCategoryId := UNASSIGNED_CATEGORY_ID, toCategoryId := c.id, amount := a, description := d1 }] }) c.id ({ c with currentAmount := c.currentAmount + a } : Category) a d2 txId2 trId2 hfc1 hcid
  have hcats : setCatAmt (setCatAmt s.categories c.id (c.currentAmount + a)) c.id (c.currentAmount + a - a) = s.categories := by
    rw [setCatAmt_setCatAmt]
    have harith : c.currentAmount + a - a = c.currentAmount := by ring
    rw [harith]
    exact setCatAmt_cancel s.categories c.id c hnd hc
  refine ⟨by rw [h1], ?_, ?_, ?_⟩
  · simp only [h1]
    rw [h2]
  · simp only [h1, h2]
    refine getUnassignedBalance_congr _ _ rfl rfl hcats ?_
    rw [List.filter_append, List.filter_append]
    have e1 : List.filter (fun t => decide (¬ jsTruthy t.categoryId ∧ ¬ hasTag t.tags ("transfer") ∧ ¬ hasTag t.tags ("account-transfer"))) [mkTransaction { amount := -a, description := jsOrDefault d1 ("Transfer"), categoryId := some UNASSIGNED_CATEGORY_ID, accountId := "default-account-id", tags := ["transfer"] } txId1] = [] := by
      simp [mkTransaction, jsTruthy, hasTag, UNASSIGNED_CATEGORY_ID]
    have e2 : List.filter (fun t => decide (¬ jsTruthy t.categoryId ∧ ¬ hasTag t.tags ("transfer") ∧ ¬ hasTag t.tags ("account-transfer"))) [mkTransaction { amount := a, description := jsOrDefault d2 ("Transfer"), categoryId := some UNASSIGNED_CATEGORY_ID, accountId := "default-account-id", tags := ["transfer"] } txId2] = [] := by
      simp [mkTransaction, jsTruthy, hasTag, UNASSIGNED_CATEGORY_ID]
    rw [e1, e2, List.append_nil, List.append_nil]
  · simp only [h1, h2]
    rw [hcats, hc]
    rfl

/-- C9 witness: the round trip evaluated with amount 9 on a concrete
category holding 4, starting unassigned balance included. -/
theorem unassigned_transfer_roundtrip_witness :
    ((createTransfer
        { budgets := ["b"],
          categories := [{ id := "c", name := "Food", targetAmount := 0, currentAmount := 4 }],
          accounts := [{ id := "a", budgetId := "b", name := "Checking", balance := 100,
                         isOnBudget := true, isClosed := false }],
          transactions := [], transfers := [] }
        { fromCategoryId := UNASSIGNED_CATEGORY_ID, toCategoryId := "c", amount := 9, description := none } "t1" "r1").1 = Except.ok ())
    ∧ ((createTransfer (createTransfer
        { budgets := ["b"],
          categories := [{ id := "c", name := "Food", targetAmount := 0, currentAmount := 4 }],
          accounts := [{ id := "a", budgetId := "b", name := "Checking", balance := 100,
                         isOnBudget := true, isClosed := false }],
          transactions := [], transfers := [] }
        { fromCategoryId := UNASSIGNED_CATEGORY_ID, toCategoryId := "c", amount := 9, description := none } "t1" "r1").2
        { fromCategoryId := "c", toCategoryId := UNASSIGNED_CATEGORY_ID, amount := 9, description := none } "t2" "r2").1 = Except.ok ())
    ∧ (getUnassignedBalance (createTransfer (createTransfer
        { budgets := ["b"],
          categories := [{ id := "c", name := "Food", targetAmount := 0, currentAmount := 4 }],
          accounts := [{ id := "a", budgetId := "b", name := "Checking", balance := 100,
                         isOnBudget := true, isClosed := false }],
          transactions := [], transfers := [] }
        { fromCategoryId := UNASSIGNED_CATEGORY_ID, toCategoryId := "c", amount := 9, description := none } "t1" "r1").2
        { fromCategoryId := "c", toCategoryId := UNASSIGNED_CATEGORY_ID, amount := 9, description := none } "t2" "r2").2
      = getUnassignedBalance
        { budgets := ["b"],
          categories := [{ id := "c", name := "Food", targetAmount := 0, currentAmount := 4 }],
          accounts := [{ id := "a", budgetId := "b", name := "Checking", balance := 100,
                         isOnBudget := true, isClosed := false }],
          transactions := [], transfers := [] })
    ∧ ((findCat (createTransfer (createTransfer
        { budgets := ["b"],
          categories := [{ id := "c", name := "Food", targetAmount := 0, currentAmount := 4 }],
          accounts := [{ id := "a", budgetId := "b", name := "Checking", balance := 100,
                         isOnBudget := true, isClosed := false }],
          transactions := [], transfers := [] }
        { fromCategoryId := UNASSIGNED_CATEGORY_ID, toCategoryId := "c", amount := 9, description := none } "t1" "r1").2
        { fromCategoryId := "c", toCategoryId := UNASSIGNED_CATEGORY_ID, amount := 9, description := none } "t2" "r2").2.categories "c").map
        (fun x => x.currentAmount) = some 4) :=
  unassigned_transfer_roundtrip
    { budgets := ["b"],
      categories := [{ id := "c", name := "Food", targetAmount := 0, currentAmount := 4 }],
      accounts := [{ id := "a", budgetId := "b", name := "Checking", balance := 100,
                     isOnBudget := true, isClosed := false }],
      transactions := [], transfers := [] }
    { id := "c", name := "Food", targetAmount := 0, currentAmount := 4 }
    9 none none "t1" "t2" "r1" "r2" (by decide) (by decide) (by decide)

/-- C10: deleting a from-UNASSIGNED transfer whose synthesized-leg
description (the input description, or the default "Transfer") is not
exactly "Transfer to " followed by the destination category's name, in a
store where no older transaction matches the content pattern either,
still debits the destination back to its pre-transfer value and removes
the Transfer record, but the synthesized "transfer"-tagged leg of amount
minus the transfer amount is not found by the content match and remains in
the transaction store. -/
theorem deleteTransfer_orphan_transaction (s : State) (c : Category) (a : Int)
    (d : Option String) (txId trId : String)
    (hc : findCat s.categories c.id = some c)
    (hdesc : jsOrDefault d ("Transfer") ≠ "Transfer to " ++ c.name)
    (hnomatch : ∀ t ∈ s.transactions,
      ¬ (t.amount = -a ∧ t.description = "Transfer to " ++ c.name ∧ hasTag t.tags ("transfer")))
    (htrfresh : ∀ tr ∈ s.transfers, tr.id ≠ trId) :
    ((deleteTransfer (createTransfer s { fromCategoryId := UNASSIGNED_CATEGORY_ID, toCategoryId := c.id, amount := a, description := d } txId trId).2 trId).1 = Except.ok ())
    ∧ ((deleteTransfer (createTransfer s { fromCategoryId := UNASSIGNED_CATEGORY_ID, toCategoryId := c.id, amount := a, description := d } txId trId).2 trId).2.transactions
        = s.transactions ++ [mkTransaction { amount := -a, description := jsOrDefault d ("Transfer"), categoryId := some UNASSIGNED_CATEGORY_ID, accountId := "default-account-id", tags := ["transfer"] } txId])
    ∧ ((deleteTransfer (createTransfer s { fromCategoryId := UNASSIGNED_CATEGORY_ID, toCategoryId := c.id, amount := a, description := d } txId trId).2 trId).2.transfers = s.transfers)
    ∧ ((findCat (deleteTransfer (createTransfer s { fromCategoryId := UNASSIGNED_CATEGORY_ID, toCategoryId := c.id, amount := a, description := d } txId trId).2 trId).2.categories c.id).map (fun x => x.currentAmount) = some c.currentAmount) := by
  have h1 := createTransfer_fromUnassigned s c a d txId trId hc
  have hfindtr : ((s.transfers ++ [({ id := trId, fromCategoryId := UNASSIGNED_CATEGORY_ID, toCategoryId := c.id, amount := a, description := d } : Transfer)]).find? fun tr => tr.id = trId) = some ({ id := trId, fromCategoryId := UNASSIGNED_CATEGORY_ID, toCategoryId := c.id, amount := a, description := d } : Transfer) := by
    rw [find?_append_none _ _ _ (fun tr htr => by simp [htrfresh tr htr])]
    rw [List.find?_cons_of_pos _ (by simp)]
  have hfc1 : findCat (setCatAmt s.categories c.id (c.currentAmount + a)) c.id = some ({ c with currentAmount := c.currentAmount + a } : Category) := by
    rw [findCat_setCatAmt_self, hc]
    rfl
  have hfound : ((s.transactions ++ [mkTransaction { amount := -a, description := jsOrDefault d ("Transfer"), categoryId := some UNASSIGNED_CATEGORY_ID, accountId := "default-account-id", tags := ["transfer"] } txId]).find? fun t => t.amount = -a ∧ t.description = "Transfer to " ++ c.name ∧ hasTag t.tags ("transfer")) = none := by
    rw [find?_append_none _ _ _ (fun t ht => by simpa using hnomatch t ht)]
    rw [List.find?_cons_of_neg _ (by simp [mkTransaction, hdesc])]
    rfl
  have hfiltr : ((s.transfers ++ [({ id := trId, fromCategoryId := UNASSIGNED_CATEGORY_ID, toCategoryId := c.id, amount := a, description := d } : Transfer)]).filter fun tr => tr.id ≠ trId) = s.transfers := by
    rw [List.filter_append]
    have e1 : (s.transfers.filter fun tr => tr.id ≠ trId) = s.transfers :=
      filter_eq_self_of_forall _ _ (fun tr htr => by simp [htrfresh tr htr])
    have e2 : (([{ id := trId, fromCategoryId := UNASSIGNED_CATEGORY_ID, toCategoryId := c.id, amount := a, description := d }] : List Transfer).filter fun tr => tr.id ≠ trId) = [] := by
      simp
    rw [e1, e2, List.append_nil]
  have hcatfin : (findCat (setCatAmt (setCatAmt s.categories c.id (c.currentAmount + a)) c.id (c.currentAmount + a - a)) c.id).map (fun x => x.currentAmount) = some c.currentAmount := by
    rw [setCatAmt_setCatAmt, findCat_setCatAmt_self, hc]
    have harith : c.currentAmount + a - a = c.currentAmount := by ring
    simp [harith]
  simp only [h1]
  unfold deleteTransfer
  dsimp only
  rw [hfindtr]
  dsimp only
  rw [if_pos rfl, hfc1]
  dsimp only
  rw [hfound]
  dsimp only
  exact ⟨rfl, rfl, hfiltr, hcatfin⟩

/-- C10 witness: the orphan behavior evaluated on a concrete transfer of 7
from UNASSIGNED to a category named Food with the default description. -/
theorem deleteTransfer_orphan_transaction_witness :
    ((deleteTransfer (createTransfer
        { budgets := ["b"],
          categories := [{ id := "c", name := "Food", targetAmount := 0, currentAmount := 4 }],
          accounts := [], transactions := [], transfers := [] }
        { fromCategoryId := UNASSIGNED_CATEGORY_ID, toCategoryId := "c", amount := 7, description := none } "t1" "r1").2 "r1").1 = Except.ok ())
    ∧ ((deleteTransfer (createTransfer
        { budgets := ["b"],
          categories := [{ id := "c", name := "Food", targetAmount := 0, currentAmount := 4 }],
          accounts := [], transactions := [], transfers := [] }
        { fromCategoryId := UNASSIGNED_CATEGORY_ID, toCategoryId := "c", amount := 7, description := none } "t1" "r1").2 "r1").2.transactions
        = ([] : List Transaction) ++ [mkTransaction { amount := -7, description := jsOrDefault none ("Transfer"), categoryId := some UNASSIGNED_CATEGORY_ID, accountId := "default-account-id", tags := ["transfer"] } "t1"])
    ∧ ((deleteTransfer (createTransfer
        { budgets := ["b"],
          categories := [{ id := "c", name := "Food", targetAmount := 0, currentAmount := 4 }],
          accounts := [], transactions := [], transfers := [] }
        { fromCategoryId := UNASSIGNED_CATEGORY_ID, toCategoryId := "c", amount := 7, description := none } "t1" "r1").2 "r1").2.transfers = ([] : List Transfer))
    ∧ ((findCat (deleteTransfer (createTransfer
        { budgets := ["b"],
          categories := [{ id := "c", name := "Food", targetAmount := 0, currentAmount := 4 }],
          accounts := [], transactions := [], transfers := [] }
        { fromCategoryId := UNASSIGNED_CATEGORY_ID, toCategoryId := "c", amount := 7, description := none } "t1" "r1").2 "r1").2.categories "c").map (fun x => x.currentAmount) = some 4) :=
  deleteTransfer_orphan_transaction
    { budgets := ["b"],
      categories := [{ id := "c", name := "Food", targetAmount := 0, currentAmount := 4 }],
      accounts := [], transactions := [], transfers := [] }
    { id := "c", name := "Food", targetAmount := 0, currentAmount := 4 }
    7 none "t1" "r1" (by decide) (by decide) (by decide) (by decide)
